import Mathlib

/-!
A shallow embedding of `coverage/sqldata.py` (class `CoverageData`): the
SQLite-backed store for measured coverage data.  The SQL tables are modelled
as association lists keyed exactly like the schema's unique keys, SQL
`insert or ignore` / `insert or replace` as the corresponding list
operations, and a raised `DataError` as `Except.error` carrying the message
(the enclosing SQLite transaction rolls back on a raise, so an error leaves
the store unchanged).  The embedding models a store that is already in use
(`_start_using` has run); fork detection, file naming and the thread/lock
plumbing are process-level concerns with no bearing on the data semantics
modelled here.
-/

set_option maxHeartbeats 1000000

namespace Sqldata

/-- Association-list lookup by key: models a SQL `select` by a unique key. -/
def alookup {α β : Type} [DecidableEq α] : List (α × β) → α → Option β
  | [], _ => none
  | (k, v) :: rest, a => if k = a then some v else alookup rest a

/-- Insert-or-replace on an association list: replaces the first binding of
the key in place, or appends a new row.  Models SQL `insert or replace` on a
table with a unique key. -/
def upsertA {α β : Type} [DecidableEq α] (k : α) (v : β) : List (α × β) → List (α × β)
  | [] => [(k, v)]
  | (k1, v1) :: rest => if k1 = k then (k, v) :: rest else (k1, v1) :: upsertA k v rest

/-- Reverse lookup: the first key bound to a given value.  Models the SQL
inner join from an id column back to the row that owns the id. -/
def lookupById {α β : Type} [DecidableEq β] : List (α × β) → β → Option α
  | [], _ => none
  | (k, v) :: rest, b => if v = b then some k else lookupById rest b

/-- Insert-or-ignore of a whole row: models SQL `insert or ignore` on a table
whose unique key is the entire row (the `arc` table). -/
def insertIgnore {α : Type} [DecidableEq α] (x : α) (l : List α) : List α :=
  if x ∈ l then l else l ++ [x]

/-- Modelled from the spec: `nums_to_numbits` lives in `coverage/numbits.py`,
which is not under `src/`.  Per spec section 4.1 a numbits blob denotes
exactly a finite set of non-negative integers, with `decode (encode S) = S`;
the blob is modelled by the set it denotes. -/
def nums_to_numbits (nums : Finset Nat) : Finset Nat := nums

/-- Modelled from the spec: `numbits_union` (coverage/numbits.py, not under
`src/`) satisfies `decode (union (encode S1) (encode S2)) = S1 ∪ S2` and is
commutative and idempotent, so on denoted sets it is set union. -/
def numbits_union (a b : Finset Nat) : Finset Nat := a ∪ b

/-- Modelled from the spec: `numbits_to_nums` (coverage/numbits.py, not under
`src/`) decodes a blob to the set it denotes; on the denotation model it is
the identity. -/
def numbits_to_nums (b : Finset Nat) : Finset Nat := b

/-- Modelled from the spec: the SQL `regexp` operator is supplied by the
connection layer (`coverage/sqlitedb.py`, not under `src/`) as Python
`re.search`: a *search* anywhere in the context name, not a full-string
match.  Modelled for literal (metacharacter-free) patterns as substring
containment; the empty pattern matches everything. -/
def regexp_search (pat text : String) : Bool :=
  pat == "" || (text.splitOn pat).length != 1

/-- The store state of `CoverageData`: the five data tables of the schema
(`file`, `context`, `line_bits`, `arc`, `tracer`), the `has_arcs` metadata
row, the in-memory mode flags `_has_lines` / `_has_arcs`, the current
measurement context and the query-context filter.  Integer ids are assigned
from the `next_file_id` / `next_context_id` counters (SQLite rowids). -/
structure CoverageData where
  has_lines : Bool
  has_arcs : Bool
  meta_has_arcs : Option Bool
  file : List (String × Nat)
  next_file_id : Nat
  context : List (String × Nat)
  next_context_id : Nat
  line_bits : List ((Nat × Nat) × Finset Nat)
  arc : List (Nat × Nat × Int × Int)
  tracer : List (Nat × String)
  current_context : Option String
  query_context_ids : Option (List Nat)
deriving DecidableEq

namespace CoverageData

/-- `_file_id(filename, add=True)`: resolve a path to its file id, inserting
a fresh row when absent.  Returns the (possibly extended) state and the id. -/
def file_id_add (s : CoverageData) (f : String) : CoverageData × Nat :=
  match alookup s.file f with
  | some fid => (s, fid)
  | none =>
    ({ s with file := s.file ++ [(f, s.next_file_id)], next_file_id := s.next_file_id + 1 },
     s.next_file_id)

/-- `_set_context_id`: resolve the current context (default `""`) to an id,
inserting a fresh context row when absent. -/
def set_context_id (s : CoverageData) : CoverageData × Nat :=
  match alookup s.context (s.current_context.getD "") with
  | some cid => (s, cid)
  | none =>
    ({ s with context := s.context ++ [(s.current_context.getD "", s.next_context_id)],
              next_context_id := s.next_context_id + 1 },
     s.next_context_id)

/-- `set_context`: record the context used by subsequent writes. -/
def set_context (s : CoverageData) (c : Option String) : CoverageData :=
  { s with current_context := c }

/-- Replace the `line_bits` table (record-update helper). -/
def setLineBits (st : CoverageData) (lb : List ((Nat × Nat) × Finset Nat)) : CoverageData :=
  { st with line_bits := lb }

/-- Replace the `arc` table (record-update helper). -/
def setArc (st : CoverageData) (rows : List (Nat × Nat × Int × Int)) : CoverageData :=
  { st with arc := rows }

/-- Replace the `tracer` table (record-update helper). -/
def setTracer (st : CoverageData) (rows : List (Nat × String)) : CoverageData :=
  { st with tracer := rows }

/-- `_choose_lines_or_arcs`: reject the write if the store is committed to
the opposite kind; on a store with no mode, commit the mode and persist the
`has_arcs` metadata flag (`insert or ignore`). -/
def choose_lines_or_arcs (s : CoverageData) (lines arcs : Bool) : Except String CoverageData :=
  if lines = true ∧ s.has_arcs = true then
    Except.error "Can't add line measurements to existing branch data"
  else if arcs = true ∧ s.has_lines = true then
    Except.error "Can't add branch measurements to existing line data"
  else if s.has_arcs = false ∧ s.has_lines = false then
    Except.ok { s with
      has_lines := lines, has_arcs := arcs,
      meta_has_arcs := match s.meta_has_arcs with | some v => some v | none => some arcs }
  else Except.ok s

/-- The value written by the per-file loop of `add_lines`: the new set
unioned with the existing `line_bits` row for the (file, context) key, when
there is one. -/
def add_lines_nb2 (st1 : CoverageData) (key : Nat × Nat) (nb : Finset Nat) : Finset Nat :=
  match alookup st1.line_bits key with
  | some existing => numbits_union nb existing
  | none => nb

/-- The body of the per-file loop of `add_lines`: resolve the file id, read
the existing `line_bits` row for the (file, context) key, union the new set
with it, and `insert or replace` the row. -/
def add_lines_write (cid : Nat) (st : CoverageData) (fl : String × Finset Nat) : CoverageData :=
  setLineBits (file_id_add st fl.1).1
    (upsertA ((file_id_add st fl.1).2, cid)
      (add_lines_nb2 (file_id_add st fl.1).1 ((file_id_add st fl.1).2, cid)
        (nums_to_numbits fl.2))
      (file_id_add st fl.1).1.line_bits)

/-- `add_lines(line_data)`: choose line mode, then run the per-file write
loop.  An empty mapping returns right after the mode is chosen. -/
def add_lines (s : CoverageData) (line_data : List (String × Finset Nat)) :
    Except String CoverageData := do
  let s1 ← choose_lines_or_arcs s true false
  if line_data.isEmpty then return s1
  let (s2, cid) := set_context_id s1
  return line_data.foldl (add_lines_write cid) s2

/-- The body of the per-file loop of `add_arcs`: skip a file with no arcs,
otherwise resolve the file id and `insert or ignore` one `arc` row per
(fromno, tono). -/
def add_arcs_write (cid : Nat) (st : CoverageData) (fa : String × List (Int × Int)) :
    CoverageData :=
  if fa.2.isEmpty then st
  else
    setArc (file_id_add st fa.1).1
      (fa.2.foldl (fun l ft => insertIgnore ((file_id_add st fa.1).2, cid, ft.1, ft.2) l)
        (file_id_add st fa.1).1.arc)

/-- `add_arcs(arc_data)`: choose arc mode, then run the per-file write loop.
An empty mapping returns right after the mode is chosen. -/
def add_arcs (s : CoverageData) (arc_data : List (String × List (Int × Int))) :
    Except String CoverageData := do
  let s1 ← choose_lines_or_arcs s false true
  if arc_data.isEmpty then return s1
  let (s2, cid) := set_context_id s1
  return arc_data.foldl (add_arcs_write cid) s2

/-- `file_tracer(filename)`: `None` when the file was never measured, the
recorded plugin name otherwise (the empty string when no tracer row). -/
def file_tracer (s : CoverageData) (f : String) : Option String :=
  match alookup s.file f with
  | none => none
  | some fid =>
    match alookup s.tracer fid with
    | some t => some (if t = "" then "" else t)
    | none => some ""

/-- The message of the tracer-conflict `DataError`, with both names. -/
def tracer_conflict_msg (f t1 t2 : String) : String :=
  "Conflicting file tracer name for '" ++ f ++ "': '" ++ t1 ++ "' vs '" ++ t2 ++ "'"

/-- One entry of the `add_file_tracers` loop: create the file row, then
raise a conflict when a different non-empty tracer is already recorded, do
nothing when it is the same, and insert the row when the file had no
(non-empty) tracer and the new name is non-empty. -/
def add_file_tracers_step (st : CoverageData) (ft : String × String) :
    Except String CoverageData :=
  match file_tracer (file_id_add st ft.1).1 ft.1 with
  | some ex =>
    if ex ≠ "" then
      if ex ≠ ft.2 then Except.error (tracer_conflict_msg ft.1 ex ft.2)
      else Except.ok (file_id_add st ft.1).1
    else if ft.2 ≠ "" then
      Except.ok (setTracer (file_id_add st ft.1).1
        ((file_id_add st ft.1).1.tracer ++ [((file_id_add st ft.1).2, ft.2)]))
    else Except.ok (file_id_add st ft.1).1
  | none =>
    if ft.2 ≠ "" then
      Except.ok (setTracer (file_id_add st ft.1).1
        ((file_id_add st ft.1).1.tracer ++ [((file_id_add st ft.1).2, ft.2)]))
    else Except.ok (file_id_add st ft.1).1

/-- `add_file_tracers(file_tracers)`: run the per-file loop; an empty
mapping returns before anything is touched. -/
def add_file_tracers (s : CoverageData) (fts : List (String × String)) :
    Except String CoverageData :=
  if fts.isEmpty then Except.ok s
  else fts.foldlM add_file_tracers_step s

/-- One entry of the `touch_files` loop: create the file row, delegating to
`add_file_tracers` when a non-empty plugin name is given. -/
def touch_files_step (plugin_name : Option String) (st : CoverageData) (f : String) :
    Except String CoverageData :=
  match plugin_name with
  | some p =>
    if p ≠ "" then add_file_tracers (file_id_add st f).1 [(f, p)]
    else Except.ok (file_id_add st f).1
  | none => Except.ok (file_id_add st f).1

/-- `touch_files(filenames, plugin_name)`: raise when no mode is
established; otherwise run the per-file loop. -/
def touch_files (s : CoverageData) (fnames : List String) (plugin_name : Option String) :
    Except String CoverageData :=
  if s.has_arcs = false ∧ s.has_lines = false then
    Except.error "Can't touch files in an empty CoverageData"
  else fnames.foldlM (touch_files_step plugin_name) s

/-- The line-mode loop of `purge_files`: for each named, measured file,
delete its `line_bits` rows. -/
def purge_lines_run (s : CoverageData) (fnames : List String) : CoverageData :=
  fnames.foldl (fun st f =>
    match alookup st.file f with
    | none => st
    | some fid => setLineBits st (st.line_bits.filter (fun r => r.1.1 ≠ fid))) s

/-- The arc-mode loop of `purge_files`: for each named, measured file,
delete its `arc` rows. -/
def purge_arcs_run (s : CoverageData) (fnames : List String) : CoverageData :=
  fnames.foldl (fun st f =>
    match alookup st.file f with
    | none => st
    | some fid => setArc st (st.arc.filter (fun r => r.1 ≠ fid))) s

/-- `purge_files(filenames)`: delete the `line_bits` rows (line mode) or the
`arc` rows (arc mode) of each named, measured file; raise when no mode is
established.  Nothing else is touched. -/
def purge_files (s : CoverageData) (fnames : List String) : Except String CoverageData :=
  if s.has_lines = true then Except.ok (purge_lines_run s fnames)
  else if s.has_arcs = true then Except.ok (purge_arcs_run s fnames)
  else Except.error "Can't purge files in an empty CoverageData"

/-- Does a row's context id pass the active query-context filter?  No filter
set means every row passes. -/
def context_ok (s : CoverageData) (cid : Nat) : Bool :=
  match s.query_context_ids with
  | none => true
  | some ids => cid ∈ ids

/-- `arcs(filename)`: `None` for a file never measured; otherwise the
distinct (fromno, tono) pairs of the file's `arc` rows passing the
query-context filter. -/
def arcs (s : CoverageData) (f : String) : Option (Finset (Int × Int)) :=
  match alookup s.file f with
  | none => none
  | some fid =>
    some (((s.arc.filter (fun r => r.1 = fid ∧ context_ok s r.2.1 = true)).map
      (fun r => (r.2.2.1, r.2.2.2))).toFinset)

/-- The positive endpoints of a set of arcs: `lines` in arc mode returns
every positive fromno/tono, excluding the negative sentinel entries. -/
def pos_lines (a : Finset (Int × Int)) : Finset Nat :=
  ((a.image Prod.fst ∪ a.image Prod.snd).filter (fun l => 0 < l)).image Int.toNat

/-- `lines(filename)`: in arc mode, derived from the (filtered) arcs as the
set of positive endpoints; otherwise `None` for a file never measured, else
the union of the decoded `line_bits` rows passing the query-context
filter. -/
def lines (s : CoverageData) (f : String) : Option (Finset Nat) :=
  if s.has_arcs = true ∧ (s.arcs f).isSome then (s.arcs f).map pos_lines
  else
    match alookup s.file f with
    | none => none
    | some fid =>
      some ((s.line_bits.filter (fun r => r.1.1 = fid ∧ context_ok s r.1.2 = true)).foldl
        (fun acc r => acc ∪ numbits_to_nums r.2) ∅)

/-- `contexts_by_lineno(filename)`: for every line observed for the file
(subject to the query-context filter), the context names under which it was
observed — from positive arc endpoints joined to `context` in arc mode, from
decoding each per-context bitset joined to `context` in line mode.  Modelled
as the set of (line, context-name) pairs. -/
def contexts_by_lineno (s : CoverageData) (f : String) : Finset (Nat × String) :=
  match alookup s.file f with
  | none => ∅
  | some fid =>
    if s.has_arcs = true then
      (s.arc.filter (fun r => r.1 = fid ∧ context_ok s r.2.1 = true)).foldl (fun acc r =>
        acc ∪ ((s.context.filter (fun pc => pc.2 = r.2.1)).foldl (fun acc2 pc =>
          (if 0 < r.2.2.1 then {(r.2.2.1.toNat, pc.1)} else ∅) ∪
          ((if 0 < r.2.2.2 then {(r.2.2.2.toNat, pc.1)} else ∅) ∪ acc2)) ∅)) ∅
    else
      (s.line_bits.filter (fun r => r.1.1 = fid ∧ context_ok s r.1.2 = true)).foldl (fun acc r =>
        acc ∪ ((s.context.filter (fun pc => pc.2 = r.1.2)).foldl (fun acc2 pc =>
          (r.2.image (fun ln => (ln, pc.1))) ∪ acc2) ∅)) ∅

/-- `set_query_context(context)`: restrict subsequent queries to the ids of
the contexts whose name is exactly the given string (SQL `context = ?`). -/
def set_query_context (s : CoverageData) (c : String) : CoverageData :=
  { s with
    query_context_ids := some ((s.context.filter (fun pc => pc.1 = c)).map Prod.snd) }

/-- `set_query_contexts(contexts)`: restrict subsequent queries to the ids
of the contexts whose name matches any of the patterns under `regexp`
search; `None` or an empty list clears the filter. -/
def set_query_contexts (s : CoverageData) (cs : Option (List String)) : CoverageData :=
  match cs with
  | some pats =>
    if pats.isEmpty then { s with query_context_ids := none }
    else { s with
      query_context_ids :=
        some ((s.context.filter (fun pc => pats.any (fun p => regexp_search p pc.1))).map
          Prod.snd) }
  | none => { s with query_context_ids := none }

/-- `loads(data)`: reject a byte string whose first byte is not the format
marker `b"z"` (byte 122), before anything else is touched; the error message
carries the first 40 bytes and the total length.  On success the payload
after the marker is handed to zlib and the SQL script runner
(`coverage/sqlitedb.py`, not under `src/`), modelled by returning that
payload. -/
def loads (data : List Nat) : Except String (List Nat) :=
  if data.take 1 = [122] then Except.ok (data.drop 1)
  else Except.error ("Unrecognized serialization: " ++ toString (data.take 40) ++
    " (head of " ++ toString data.length ++ " bytes)")

/-- The file paths `update` reads from the source store: each path of the
other store's `file` table paired with its remapping under `map_path`. -/
def filesOf (b : CoverageData) (mp : String → String) : List (String × String) :=
  b.file.map (fun pr => (pr.1, mp pr.1))

/-- The arc rows `update` reads from the source store: the `arc` table inner
joined to `file` and `context`, with paths remapped. -/
def arcsOf (b : CoverageData) (mp : String → String) : List (String × String × Int × Int) :=
  b.arc.filterMap (fun r =>
    match lookupById b.file r.1, lookupById b.context r.2.1 with
    | some p, some c => some (mp p, c, r.2.2.1, r.2.2.2)
    | _, _ => none)

/-- The line data `update` reads from the source store: a dictionary from
(remapped path, context) to numbits, unioning duplicate keys met across the
source's rows. -/
def linesOf (b : CoverageData) (mp : String → String) : List ((String × String) × Finset Nat) :=
  b.line_bits.foldl (fun acc r =>
    match lookupById b.file r.1.1, lookupById b.context r.1.2 with
    | some p, some c =>
      match alookup acc (mp p, c) with
      | some prev => upsertA (mp p, c) (numbits_union prev r.2) acc
      | none => acc ++ [((mp p, c), r.2)]
    | _, _ => acc) []

/-- The tracer data `update` reads from the source store: a dictionary from
remapped path to tracer name. -/
def tracersOf (b : CoverageData) (mp : String → String) : List (String × String) :=
  b.tracer.foldl (fun acc r =>
    match lookupById b.file r.1 with
    | some p => upsertA (mp p) r.2 acc
    | none => acc) []

/-- The destination store's tracer view built by `update`: every measured
file defaults to the empty tracer, overwritten by the store's own tracer
rows keyed by *remapped* path (as the source does). -/
def thisTracersOf (a : CoverageData) (mp : String → String) : List (String × String) :=
  a.tracer.foldl (fun acc r =>
    match lookupById a.file r.1 with
    | some p => upsertA (mp p) r.2 acc
    | none => acc) (a.file.map (fun pr => (pr.1, "")))

/-- `insert or ignore into file (path)`: create a file row unless the path
already has one. -/
def insertFileIgnore (st : CoverageData) (p : String) : CoverageData :=
  if (alookup st.file p).isSome then st
  else { st with file := st.file ++ [(p, st.next_file_id)], next_file_id := st.next_file_id + 1 }

/-- `insert or ignore into context (context)`: create a context row unless
the name already has one. -/
def insertContextIgnore (st : CoverageData) (c : String) : CoverageData :=
  if (alookup st.context c).isSome then st
  else { st with context := st.context ++ [(c, st.next_context_id)],
                 next_context_id := st.next_context_id + 1 }

/-- One path of the tracer-conflict pass of `update`: compare the
destination's tracer for the path (absent file means no constraint) with the
incoming one (absent means `""`); mismatch raises, otherwise the association
is collected. -/
def buildTracerMap_step (this_tracers btracers : List (String × String))
    (tm : List (String × String)) (path : String) : Except String (List (String × String)) :=
  match alookup this_tracers path with
  | some tt =>
    if tt = (alookup btracers path).getD "" then
      Except.ok (upsertA path ((alookup btracers path).getD "") tm)
    else Except.error (tracer_conflict_msg path tt ((alookup btracers path).getD ""))
  | none => Except.ok (upsertA path ((alookup btracers path).getD "") tm)

/-- The tracer-conflict pass of `update`, over every incoming (remapped)
file path. -/
def buildTracerMap (this_tracers btracers : List (String × String)) (paths : List String) :
    Except String (List (String × String)) :=
  paths.foldlM (buildTracerMap_step this_tracers btracers) []

/-- The "create all file and context rows" step of `update`: insert-or-ignore
every incoming (remapped) path into `file` and every incoming context name
into `context`. -/
def stageTables (a : CoverageData) (files : List (String × String))
    (bcontexts : List String) : CoverageData :=
  bcontexts.foldl insertContextIgnore (files.foldl (fun st pr => insertFileIgnore st pr.2) a)

/-- The incoming arc rows translated through the destination's id tables. -/
def arcRowsT (t : CoverageData) (barcs : List (String × String × Int × Int)) :
    List (Nat × Nat × Int × Int) :=
  barcs.map (fun r =>
    ((alookup t.file r.1).getD 0, (alookup t.context r.2.1).getD 0, r.2.2.1, r.2.2.2))

/-- The incoming line rows translated through the destination's id tables,
each unioned with the destination's existing row for the same key (read
before any line row is written, as the source does). -/
def lineRowsT (t : CoverageData) (cur : List ((Nat × Nat) × Finset Nat))
    (blines : List ((String × String) × Finset Nat)) : List ((Nat × Nat) × Finset Nat) :=
  blines.map (fun kv =>
    let key : Nat × Nat :=
      ((alookup t.file kv.1.1).getD 0, (alookup t.context kv.1.2).getD 0)
    match alookup cur key with
    | some ex => (key, numbits_union kv.2 ex)
    | none => (key, kv.2))

/-- The bulk `insert or ignore` of the translated incoming arc rows. -/
def updArc (t st3 : CoverageData) (barcs : List (String × String × Int × Int)) : CoverageData :=
  setArc st3 ((arcRowsT t barcs).foldl (fun l row => insertIgnore row l) st3.arc)

/-- The bulk `insert or replace` of the translated incoming line rows, each
already unioned with the destination's existing row. -/
def updLines (t st5 : CoverageData) (blines : List ((String × String) × Finset Nat)) :
    CoverageData :=
  setLineBits st5
    ((lineRowsT t st5.line_bits blines).foldl (fun l kv => upsertA kv.1 kv.2 l) st5.line_bits)

/-- The bulk `insert or ignore` of the collected tracer associations, keyed
by file id. -/
def updTracer (t st6 : CoverageData) (tm : List (String × String)) : CoverageData :=
  setTracer st6 (tm.foldl (fun l kv =>
    match alookup t.file kv.1 with
    | some fid => if (alookup l fid).isSome then l else l ++ [(fid, kv.2)]
    | none => l) st6.tracer)

/-- The write phase of `update`, after the source store has been read:
create file and context rows, run the tracer-conflict pass, choose the mode
when arc or line rows are incoming, bulk-insert arcs (`insert or ignore`),
line bitsets (`insert or replace` of the unions) and tracer rows
(`insert or ignore`). -/
def updateApply (a : CoverageData) (files : List (String × String))
    (bcontexts : List String) (barcs : List (String × String × Int × Int))
    (blines : List ((String × String) × Finset Nat))
    (btracers this_tracers : List (String × String)) : Except String CoverageData := do
  let tracer_map ← buildTracerMap this_tracers btracers (files.map Prod.snd)
  let st3 ← if barcs.isEmpty then pure (stageTables a files bcontexts)
    else choose_lines_or_arcs (stageTables a files bcontexts) false true
  let st5 ← if blines.isEmpty then pure (updArc (stageTables a files bcontexts) st3 barcs)
    else choose_lines_or_arcs (updArc (stageTables a files bcontexts) st3 barcs) true false
  pure (updTracer (stageTables a files bcontexts)
    (updLines (stageTables a files bcontexts) st5 blines) tracer_map)

/-- `update(other_data, map_path)`: reject incompatible modes up front, read
the whole source store (files, contexts, arcs, line bitsets, tracers) with
paths remapped, then apply the write phase as one transaction. -/
def update (a b : CoverageData) (mp : String → String) : Except String CoverageData :=
  if a.has_lines = true ∧ b.has_arcs = true then
    Except.error "Can't combine arc data with line data"
  else if a.has_arcs = true ∧ b.has_lines = true then
    Except.error "Can't combine line data with arc data"
  else
    updateApply a (filesOf b mp) (b.context.map Prod.fst) (arcsOf b mp) (linesOf b mp)
      (tracersOf b mp) (thisTracersOf a mp)

/-- The state `update` leaves behind: the written store on success; on a
raised `DataError` the SQLite transaction rolls back, so the store keeps its
prior content. -/
def updateApplied (a b : CoverageData) (mp : String → String) : CoverageData :=
  match update a b mp with
  | Except.ok s => s
  | Except.error _ => a

end CoverageData

/-- Well-formedness of a store state, as maintained by the real database:
row ids are unique and below the id counters, `line_bits` rows reference
only allocated ids, the mode flags are exclusive, each mode flag being unset
means the corresponding table is empty, and a store with no mode has no
`has_arcs` metadata row. -/
@[reducible] def WF (s : CoverageData) : Prop :=
  (s.file.map Prod.snd).Nodup ∧
  (∀ pr ∈ s.file, pr.2 < s.next_file_id) ∧
  (s.context.map Prod.snd).Nodup ∧
  (∀ pr ∈ s.context, pr.2 < s.next_context_id) ∧
  (∀ r ∈ s.line_bits, r.1.1 < s.next_file_id ∧ r.1.2 < s.next_context_id) ∧
  ¬(s.has_lines = true ∧ s.has_arcs = true) ∧
  (s.has_arcs = false → s.arc = []) ∧
  (s.has_lines = false → s.line_bits = []) ∧
  (s.has_lines = false ∧ s.has_arcs = false → s.meta_has_arcs = none)

/-- A sequence of `add_lines` calls for one file, made under one
(unchanged) measurement context. -/
def add_lines_seq (s : CoverageData) (f : String) (Ls : List (Finset Nat)) :
    Except String CoverageData :=
  Ls.foldlM (fun st L => CoverageData.add_lines st [(f, L)]) s

/-- A freshly created, never written store. -/
def empty0 : CoverageData :=
  { has_lines := false, has_arcs := false, meta_has_arcs := none,
    file := [], next_file_id := 1, context := [], next_context_id := 1,
    line_bits := [], arc := [], tracer := [],
    current_context := none, query_context_ids := none }

/-- A sample line-mode store: two measured files (one with no rows), three
contexts with line data in each, and a tracer association. -/
def lineStore : CoverageData :=
  { has_lines := true, has_arcs := false, meta_has_arcs := some false,
    file := [("a.py", 1), ("b.py", 2)], next_file_id := 3,
    context := [("", 1), ("unit.one", 2), ("sys", 3)], next_context_id := 4,
    line_bits := [((1, 1), {1, 2}), ((1, 2), {3}), ((1, 3), {5})],
    arc := [], tracer := [(1, "plug")],
    current_context := none, query_context_ids := none }

/-- `empty0` after an empty `add_lines` call: committed to line mode with
the metadata flag persisted, but no data rows. -/
def emptyLineMode : CoverageData :=
  { empty0 with has_lines := true, meta_has_arcs := some false }

/-- `empty0` after an empty `add_arcs` call: committed to arc mode with the
metadata flag persisted, but no data rows. -/
def emptyArcMode : CoverageData :=
  { empty0 with has_arcs := true, meta_has_arcs := some true }

/-- A sample arc-mode store with one measured file. -/
def arcStore : CoverageData :=
  { has_lines := false, has_arcs := true, meta_has_arcs := some true,
    file := [("x.py", 1)], next_file_id := 2,
    context := [("", 1)], next_context_id := 2,
    line_bits := [], arc := [(1, 1, 1, 2), (1, 1, -1, 5)], tracer := [],
    current_context := none, query_context_ids := none }


/-- The mode tri-state of section 3 of the spec: no mode, line-mode or
arc-mode — never both flags at once. -/
@[reducible] def ModeOK (s : CoverageData) : Prop :=
  ¬(s.has_lines = true ∧ s.has_arcs = true)

/-! ### Association-list lemmas -/

theorem alookup_append {α β : Type} [DecidableEq α] (l1 l2 : List (α × β)) (a : α) :
    alookup (l1 ++ l2) a =
      match alookup l1 a with
      | some v => some v
      | none => alookup l2 a := by
  induction l1 with
  | nil => simp [alookup]
  | cons hd tl ih =>
    obtain ⟨k, v⟩ := hd
    by_cases h : k = a <;> simp [alookup, h, ih]

theorem mem_of_alookup_eq_some {α β : Type} [DecidableEq α] {l : List (α × β)} {a : α} {v : β}
    (h : alookup l a = some v) : (a, v) ∈ l := by
  induction l with
  | nil => simp [alookup] at h
  | cons hd tl ih =>
    obtain ⟨k, w⟩ := hd
    by_cases hk : k = a
    · subst hk
      simp [alookup] at h
      simp [h]
    · simp [alookup, hk] at h
      exact List.mem_cons_of_mem _ (ih h)

theorem alookup_eq_none_iff {α β : Type} [DecidableEq α] {l : List (α × β)} {a : α} :
    alookup l a = none ↔ a ∉ l.map Prod.fst := by
  induction l with
  | nil => simp [alookup]
  | cons hd tl ih =>
    obtain ⟨k, w⟩ := hd
    by_cases hk : k = a
    · subst hk
      simp [alookup]
    · simp [alookup, hk, ih, Ne.symm hk]

theorem alookup_isSome_iff {α β : Type} [DecidableEq α] {l : List (α × β)} {a : α} :
    (alookup l a).isSome ↔ a ∈ l.map Prod.fst := by
  rcases h : alookup l a with _ | v
  · simpa [h] using (alookup_eq_none_iff (l := l) (a := a)).mp h
  · simp only [Option.isSome_some, true_iff]
    exact List.mem_map_of_mem Prod.fst (mem_of_alookup_eq_some h)

theorem alookup_of_mem_of_nodup {α β : Type} [DecidableEq α] {l : List (α × β)} {a : α} {v : β}
    (hmem : (a, v) ∈ l) (hnd : (l.map Prod.fst).Nodup) : alookup l a = some v := by
  induction l with
  | nil => simp at hmem
  | cons hd tl ih =>
    obtain ⟨k, w⟩ := hd
    simp only [List.map_cons, List.nodup_cons] at hnd
    rcases List.mem_cons.mp hmem with heq | hmem'
    · obtain ⟨h1, h2⟩ := Prod.mk.injEq .. ▸ heq
      injection heq with h1 h2
      subst h1; subst h2
      simp [alookup]
    · have hka : k ≠ a := by
        rintro rfl
        exact hnd.1 (List.mem_map_of_mem Prod.fst hmem')
      simp [alookup, hka, ih hmem' hnd.2]

theorem upsertA_of_alookup_eq_none {α β : Type} [DecidableEq α] {l : List (α × β)} {k : α}
    (h : alookup l k = none) (v : β) : upsertA k v l = l ++ [(k, v)] := by
  induction l with
  | nil => simp [upsertA]
  | cons hd tl ih =>
    obtain ⟨k1, v1⟩ := hd
    by_cases hk : k1 = k
    · simp [alookup, hk] at h
    · simp [alookup, hk] at h
      simp [upsertA, hk, ih h]

theorem upsertA_decomp {α β : Type} [DecidableEq α] {l : List (α × β)} {k : α} {ex : β}
    (h : alookup l k = some ex) (v : β) :
    ∃ l1 l2, l = l1 ++ (k, ex) :: l2 ∧ alookup l1 k = none ∧
      upsertA k v l = l1 ++ (k, v) :: l2 := by
  induction l with
  | nil => simp [alookup] at h
  | cons hd tl ih =>
    obtain ⟨k1, v1⟩ := hd
    by_cases hk : k1 = k
    · subst hk
      simp [alookup] at h
      subst h
      exact ⟨[], tl, by simp, by simp [alookup], by simp [upsertA]⟩
    · simp [alookup, hk] at h
      obtain ⟨l1, l2, heq, hnone, hup⟩ := ih h
      refine ⟨(k1, v1) :: l1, l2, by simp [heq], ?_, ?_⟩
      · simp [alookup, hk, hnone]
      · simp [upsertA, hk, hup]

theorem upsertA_noop {α β : Type} [DecidableEq α] {l : List (α × β)} {k : α} {v : β}
    (h : alookup l k = some v) : upsertA k v l = l := by
  obtain ⟨l1, l2, heq, _, hup⟩ := upsertA_decomp h v
  rw [hup, heq]

theorem alookup_upsertA_self {α β : Type} [DecidableEq α] (l : List (α × β)) (k : α) (v : β) :
    alookup (upsertA k v l) k = some v := by
  rcases h : alookup l k with _ | ex
  · rw [upsertA_of_alookup_eq_none h, alookup_append, h]
    simp [alookup]
  · obtain ⟨l1, l2, _, hnone, hup⟩ := upsertA_decomp h v
    rw [hup, alookup_append, hnone]
    simp [alookup]

theorem alookup_upsertA_ne {α β : Type} [DecidableEq α] (l : List (α × β)) {k a : α} (v : β)
    (hne : a ≠ k) : alookup (upsertA k v l) a = alookup l a := by
  induction l with
  | nil =>
    simp only [upsertA, alookup]
    rw [if_neg (fun h => hne h.symm)]
  | cons hd tl ih =>
    obtain ⟨k1, v1⟩ := hd
    by_cases hk : k1 = k
    · subst hk
      simp only [upsertA, if_pos rfl, alookup]
      rw [if_neg (fun h => hne h.symm), if_neg (fun h => hne h.symm)]
    · simp only [upsertA, if_neg hk, alookup, ih]

theorem insertIgnore_of_mem {α : Type} [DecidableEq α] {x : α} {l : List α} (h : x ∈ l) :
    insertIgnore x l = l := by
  simp [insertIgnore, h]

theorem mem_insertIgnore_self {α : Type} [DecidableEq α] (x : α) (l : List α) :
    x ∈ insertIgnore x l := by
  by_cases h : x ∈ l <;> simp [insertIgnore, h]

theorem mem_insertIgnore_of_mem {α : Type} [DecidableEq α] {x : α} {l : List α} (y : α)
    (h : x ∈ l) : x ∈ insertIgnore y l := by
  by_cases hy : y ∈ l <;> simp [insertIgnore, hy, h]

/-! ### Fold lemmas -/

theorem foldl_induction {α σ : Type} (f : σ → α → σ) (P : σ → Prop) (xs : List α) (s : σ)
    (h0 : P s) (hstep : ∀ t a, a ∈ xs → P t → P (f t a)) : P (xs.foldl f s) := by
  induction xs generalizing s with
  | nil => exact h0
  | cons hd tl ih =>
    simp only [List.foldl_cons]
    exact ih (f s hd) (hstep s hd (by simp) h0)
      (fun t a ha ht => hstep t a (List.mem_cons_of_mem _ ha) ht)

theorem foldl_congr_noop {α σ : Type} (f : σ → α → σ) (xs : List α) (s : σ)
    (h : ∀ a ∈ xs, f s a = s) : xs.foldl f s = s := by
  induction xs with
  | nil => rfl
  | cons hd tl ih =>
    simp only [List.foldl_cons, h hd (by simp)]
    exact ih (fun a ha => h a (List.mem_cons_of_mem _ ha))

theorem mem_foldl_union {κ : Type} (l : List (κ × Finset Nat)) (acc : Finset Nat) (x : Nat) :
    x ∈ l.foldl (fun acc r => acc ∪ numbits_to_nums r.2) acc ↔
      x ∈ acc ∨ ∃ r ∈ l, x ∈ r.2 := by
  induction l generalizing acc with
  | nil => simp
  | cons hd tl ih =>
    simp only [List.foldl_cons]
    rw [ih]
    simp only [numbits_to_nums, Finset.mem_union, List.mem_cons]
    constructor
    · rintro ((hx | hx) | ⟨r, hr, hx⟩)
      · exact Or.inl hx
      · exact Or.inr ⟨hd, Or.inl rfl, hx⟩
      · exact Or.inr ⟨r, Or.inr hr, hx⟩
    · rintro (hx | ⟨r, hr, hx⟩)
      · exact Or.inl (Or.inl hx)
      · rcases hr with rfl | hr
        · exact Or.inl (Or.inr hx)
        · exact Or.inr ⟨r, hr, hx⟩

theorem mem_foldl_insertIgnore_init {α : Type} [DecidableEq α] (xs : List α) (l : List α)
    {x : α} (h : x ∈ l) : x ∈ xs.foldl (fun l y => insertIgnore y l) l :=
  foldl_induction _ (fun t => x ∈ t) xs l h (fun _ a _ ht => mem_insertIgnore_of_mem a ht)

theorem mem_foldl_insertIgnore_elem {α : Type} [DecidableEq α] (xs : List α) (l : List α)
    {x : α} (h : x ∈ xs) : x ∈ xs.foldl (fun l y => insertIgnore y l) l := by
  induction xs generalizing l with
  | nil => simp at h
  | cons hd tl ih =>
    simp only [List.foldl_cons]
    rcases List.mem_cons.mp h with rfl | h'
    · exact mem_foldl_insertIgnore_init tl _ (mem_insertIgnore_self x l)
    · exact ih _ h'

theorem foldl_insertIgnore_noop {α : Type} [DecidableEq α] {xs l : List α}
    (h : ∀ x ∈ xs, x ∈ l) : xs.foldl (fun l y => insertIgnore y l) l = l :=
  foldl_congr_noop _ xs l (fun a ha => insertIgnore_of_mem (h a ha))

theorem foldl_upsertA_noop {α β : Type} [DecidableEq α] {kvs l : List (α × β)}
    (h : ∀ kv ∈ kvs, alookup l kv.1 = some kv.2) :
    kvs.foldl (fun l kv => upsertA kv.1 kv.2 l) l = l :=
  foldl_congr_noop _ kvs l (fun kv hkv => upsertA_noop (h kv hkv))

theorem alookup_foldl_upsertA_not_mem {α β : Type} [DecidableEq α] (kvs : List (α × β))
    (l : List (α × β)) (k : α) (h : k ∉ kvs.map Prod.fst) :
    alookup (kvs.foldl (fun l kv => upsertA kv.1 kv.2 l) l) k = alookup l k := by
  induction kvs generalizing l with
  | nil => rfl
  | cons hd tl ih =>
    simp only [List.map_cons, List.mem_cons, not_or] at h
    simp only [List.foldl_cons]
    rw [ih _ h.2, alookup_upsertA_ne _ _ h.1]

theorem alookup_foldl_upsertA_distinct {α β : Type} [DecidableEq α] {kvs : List (α × β)}
    (l : List (α × β)) (hnd : (kvs.map Prod.fst).Nodup) {kv : α × β} (hkv : kv ∈ kvs) :
    alookup (kvs.foldl (fun l kv => upsertA kv.1 kv.2 l) l) kv.1 = some kv.2 := by
  induction kvs generalizing l with
  | nil => simp at hkv
  | cons hd tl ih =>
    simp only [List.map_cons, List.nodup_cons] at hnd
    simp only [List.foldl_cons]
    rcases List.mem_cons.mp hkv with rfl | h'
    · rw [alookup_foldl_upsertA_not_mem tl _ _ hnd.1, alookup_upsertA_self]
    · exact ih _ hnd.2 h'

/-! ### Component lemmas for the primitive state operations -/

namespace CoverageData

@[simp] theorem file_id_add_has_lines (s : CoverageData) (f : String) :
    (file_id_add s f).1.has_lines = s.has_lines := by
  unfold file_id_add; split <;> rfl

@[simp] theorem file_id_add_has_arcs (s : CoverageData) (f : String) :
    (file_id_add s f).1.has_arcs = s.has_arcs := by
  unfold file_id_add; split <;> rfl

@[simp] theorem file_id_add_meta (s : CoverageData) (f : String) :
    (file_id_add s f).1.meta_has_arcs = s.meta_has_arcs := by
  unfold file_id_add; split <;> rfl

@[simp] theorem file_id_add_context (s : CoverageData) (f : String) :
    (file_id_add s f).1.context = s.context := by
  unfold file_id_add; split <;> rfl

@[simp] theorem file_id_add_next_context_id (s : CoverageData) (f : String) :
    (file_id_add s f).1.next_context_id = s.next_context_id := by
  unfold file_id_add; split <;> rfl

@[simp] theorem file_id_add_line_bits (s : CoverageData) (f : String) :
    (file_id_add s f).1.line_bits = s.line_bits := by
  unfold file_id_add; split <;> rfl

@[simp] theorem file_id_add_arc (s : CoverageData) (f : String) :
    (file_id_add s f).1.arc = s.arc := by
  unfold file_id_add; split <;> rfl

@[simp] theorem file_id_add_tracer (s : CoverageData) (f : String) :
    (file_id_add s f).1.tracer = s.tracer := by
  unfold file_id_add; split <;> rfl

@[simp] theorem file_id_add_current_context (s : CoverageData) (f : String) :
    (file_id_add s f).1.current_context = s.current_context := by
  unfold file_id_add; split <;> rfl

@[simp] theorem file_id_add_query (s : CoverageData) (f : String) :
    (file_id_add s f).1.query_context_ids = s.query_context_ids := by
  unfold file_id_add; split <;> rfl

@[simp] theorem set_context_id_has_lines (s : CoverageData) :
    (set_context_id s).1.has_lines = s.has_lines := by
  unfold set_context_id; split <;> rfl

@[simp] theorem set_context_id_has_arcs (s : CoverageData) :
    (set_context_id s).1.has_arcs = s.has_arcs := by
  unfold set_context_id; split <;> rfl

@[simp] theorem set_context_id_meta (s : CoverageData) :
    (set_context_id s).1.meta_has_arcs = s.meta_has_arcs := by
  unfold set_context_id; split <;> rfl

@[simp] theorem set_context_id_file (s : CoverageData) :
    (set_context_id s).1.file = s.file := by
  unfold set_context_id; split <;> rfl

@[simp] theorem set_context_id_next_file_id (s : CoverageData) :
    (set_context_id s).1.next_file_id = s.next_file_id := by
  unfold set_context_id; split <;> rfl

@[simp] theorem set_context_id_line_bits (s : CoverageData) :
    (set_context_id s).1.line_bits = s.line_bits := by
  unfold set_context_id; split <;> rfl

@[simp] theorem set_context_id_arc (s : CoverageData) :
    (set_context_id s).1.arc = s.arc := by
  unfold set_context_id; split <;> rfl

@[simp] theorem set_context_id_tracer (s : CoverageData) :
    (set_context_id s).1.tracer = s.tracer := by
  unfold set_context_id; split <;> rfl

@[simp] theorem set_context_id_current_context (s : CoverageData) :
    (set_context_id s).1.current_context = s.current_context := by
  unfold set_context_id; split <;> rfl

@[simp] theorem set_context_id_query (s : CoverageData) :
    (set_context_id s).1.query_context_ids = s.query_context_ids := by
  unfold set_context_id; split <;> rfl

@[simp] theorem insertFileIgnore_has_lines (s : CoverageData) (p : String) :
    (insertFileIgnore s p).has_lines = s.has_lines := by
  unfold insertFileIgnore; split <;> rfl

@[simp] theorem insertFileIgnore_has_arcs (s : CoverageData) (p : String) :
    (insertFileIgnore s p).has_arcs = s.has_arcs := by
  unfold insertFileIgnore; split <;> rfl

@[simp] theorem insertFileIgnore_meta (s : CoverageData) (p : String) :
    (insertFileIgnore s p).meta_has_arcs = s.meta_has_arcs := by
  unfold insertFileIgnore; split <;> rfl

@[simp] theorem insertFileIgnore_context (s : CoverageData) (p : String) :
    (insertFileIgnore s p).context = s.context := by
  unfold insertFileIgnore; split <;> rfl

@[simp] theorem insertFileIgnore_next_context_id (s : CoverageData) (p : String) :
    (insertFileIgnore s p).next_context_id = s.next_context_id := by
  unfold insertFileIgnore; split <;> rfl

@[simp] theorem insertFileIgnore_line_bits (s : CoverageData) (p : String) :
    (insertFileIgnore s p).line_bits = s.line_bits := by
  unfold insertFileIgnore; split <;> rfl

@[simp] theorem insertFileIgnore_arc (s : CoverageData) (p : String) :
    (insertFileIgnore s p).arc = s.arc := by
  unfold insertFileIgnore; split <;> rfl

@[simp] theorem insertFileIgnore_tracer (s : CoverageData) (p : String) :
    (insertFileIgnore s p).tracer = s.tracer := by
  unfold insertFileIgnore; split <;> rfl

@[simp] theorem insertFileIgnore_current_context (s : CoverageData) (p : String) :
    (insertFileIgnore s p).current_context = s.current_context := by
  unfold insertFileIgnore; split <;> rfl

@[simp] theorem insertFileIgnore_query (s : CoverageData) (p : String) :
    (insertFileIgnore s p).query_context_ids = s.query_context_ids := by
  unfold insertFileIgnore; split <;> rfl

@[simp] theorem insertContextIgnore_has_lines (s : CoverageData) (c : String) :
    (insertContextIgnore s c).has_lines = s.has_lines := by
  unfold insertContextIgnore; split <;> rfl

@[simp] theorem insertContextIgnore_has_arcs (s : CoverageData) (c : String) :
    (insertContextIgnore s c).has_arcs = s.has_arcs := by
  unfold insertContextIgnore; split <;> rfl

@[simp] theorem insertContextIgnore_meta (s : CoverageData) (c : String) :
    (insertContextIgnore s c).meta_has_arcs = s.meta_has_arcs := by
  unfold insertContextIgnore; split <;> rfl

@[simp] theorem insertContextIgnore_file (s : CoverageData) (c : String) :
    (insertContextIgnore s c).file = s.file := by
  unfold insertContextIgnore; split <;> rfl

@[simp] theorem insertContextIgnore_next_file_id (s : CoverageData) (c : String) :
    (insertContextIgnore s c).next_file_id = s.next_file_id := by
  unfold insertContextIgnore; split <;> rfl

@[simp] theorem insertContextIgnore_line_bits (s : CoverageData) (c : String) :
    (insertContextIgnore s c).line_bits = s.line_bits := by
  unfold insertContextIgnore; split <;> rfl

@[simp] theorem insertContextIgnore_arc (s : CoverageData) (c : String) :
    (insertContextIgnore s c).arc = s.arc := by
  unfold insertContextIgnore; split <;> rfl

@[simp] theorem insertContextIgnore_tracer (s : CoverageData) (c : String) :
    (insertContextIgnore s c).tracer = s.tracer := by
  unfold insertContextIgnore; split <;> rfl

@[simp] theorem insertContextIgnore_current_context (s : CoverageData) (c : String) :
    (insertContextIgnore s c).current_context = s.current_context := by
  unfold insertContextIgnore; split <;> rfl

@[simp] theorem insertContextIgnore_query (s : CoverageData) (c : String) :
    (insertContextIgnore s c).query_context_ids = s.query_context_ids := by
  unfold insertContextIgnore; split <;> rfl

end CoverageData

/-! ### Lemmas about `_choose_lines_or_arcs` -/

namespace CoverageData

theorem choose_ok_components {s s' : CoverageData} {lb ab : Bool}
    (h : choose_lines_or_arcs s lb ab = Except.ok s') :
    s'.file = s.file ∧ s'.next_file_id = s.next_file_id ∧ s'.context = s.context ∧
    s'.next_context_id = s.next_context_id ∧ s'.line_bits = s.line_bits ∧
    s'.arc = s.arc ∧ s'.tracer = s.tracer ∧ s'.current_context = s.current_context ∧
    s'.query_context_ids = s.query_context_ids := by
  unfold choose_lines_or_arcs at h
  split at h
  · cases h
  · split at h
    · cases h
    · split at h
      · cases h
        exact ⟨rfl, rfl, rfl, rfl, rfl, rfl, rfl, rfl, rfl⟩
      · cases h
        exact ⟨rfl, rfl, rfl, rfl, rfl, rfl, rfl, rfl, rfl⟩

theorem choose_lines_ok_flags {s s' : CoverageData}
    (h : choose_lines_or_arcs s true false = Except.ok s') :
    s'.has_lines = true ∧ s'.has_arcs = false := by
  cases hA : s.has_arcs with
  | true =>
    rw [choose_lines_or_arcs, if_pos ⟨rfl, hA⟩] at h
    cases h
  | false =>
    cases hL : s.has_lines with
    | false =>
      rw [choose_lines_or_arcs, if_neg (by simp [hA]), if_neg (by simp),
        if_pos ⟨hA, hL⟩] at h
      cases h
      exact ⟨rfl, rfl⟩
    | true =>
      rw [choose_lines_or_arcs, if_neg (by simp [hA]), if_neg (by simp),
        if_neg (by simp [hL])] at h
      cases h
      exact ⟨hL, hA⟩

theorem choose_arcs_ok_flags {s s' : CoverageData}
    (h : choose_lines_or_arcs s false true = Except.ok s') :
    s'.has_arcs = true ∧ s'.has_lines = false := by
  cases hL : s.has_lines with
  | true =>
    rw [choose_lines_or_arcs, if_neg (by simp), if_pos ⟨rfl, hL⟩] at h
    cases h
  | false =>
    cases hA : s.has_arcs with
    | false =>
      rw [choose_lines_or_arcs, if_neg (by simp), if_neg (by simp [hL]),
        if_pos ⟨hA, hL⟩] at h
      cases h
      exact ⟨rfl, rfl⟩
    | true =>
      rw [choose_lines_or_arcs, if_neg (by simp), if_neg (by simp [hL]),
        if_neg (by simp [hA])] at h
      cases h
      exact ⟨hA, hL⟩

theorem choose_lines_conflict {s : CoverageData} (h : s.has_arcs = true) :
    choose_lines_or_arcs s true false =
      Except.error "Can't add line measurements to existing branch data" := by
  rw [choose_lines_or_arcs, if_pos ⟨rfl, h⟩]

theorem choose_arcs_conflict {s : CoverageData} (h : s.has_lines = true) :
    choose_lines_or_arcs s false true =
      Except.error "Can't add branch measurements to existing line data" := by
  rw [choose_lines_or_arcs, if_neg (by simp), if_pos ⟨rfl, h⟩]

theorem choose_commit {s : CoverageData} (hl : s.has_lines = false) (ha : s.has_arcs = false)
    (lb ab : Bool) :
    choose_lines_or_arcs s lb ab = Except.ok { s with
      has_lines := lb, has_arcs := ab,
      meta_has_arcs := match s.meta_has_arcs with | some v => some v | none => some ab } := by
  rw [choose_lines_or_arcs, if_neg (by simp [ha]), if_neg (by simp [hl]), if_pos ⟨ha, hl⟩]

theorem choose_noop_lines {s : CoverageData} (hl : s.has_lines = true) (ha : s.has_arcs = false) :
    choose_lines_or_arcs s true false = Except.ok s := by
  rw [choose_lines_or_arcs, if_neg (by simp [ha]), if_neg (by simp),
    if_neg (by simp [hl])]

theorem choose_noop_arcs {s : CoverageData} (ha : s.has_arcs = true) (hl : s.has_lines = false) :
    choose_lines_or_arcs s false true = Except.ok s := by
  rw [choose_lines_or_arcs, if_neg (by simp), if_neg (by simp [hl]),
    if_neg (by simp [ha])]

end CoverageData

/-! ### Setter projection lemmas -/

namespace CoverageData

@[simp] theorem setLineBits_has_lines (st : CoverageData) (lb) :
    (setLineBits st lb).has_lines = st.has_lines := rfl

@[simp] theorem setLineBits_has_arcs (st : CoverageData) (lb) :
    (setLineBits st lb).has_arcs = st.has_arcs := rfl

@[simp] theorem setLineBits_meta (st : CoverageData) (lb) :
    (setLineBits st lb).meta_has_arcs = st.meta_has_arcs := rfl

@[simp] theorem setLineBits_file (st : CoverageData) (lb) :
    (setLineBits st lb).file = st.file := rfl

@[simp] theorem setLineBits_next_file_id (st : CoverageData) (lb) :
    (setLineBits st lb).next_file_id = st.next_file_id := rfl

@[simp] theorem setLineBits_context (st : CoverageData) (lb) :
    (setLineBits st lb).context = st.context := rfl

@[simp] theorem setLineBits_next_context_id (st : CoverageData) (lb) :
    (setLineBits st lb).next_context_id = st.next_context_id := rfl

@[simp] theorem setLineBits_line_bits (st : CoverageData) (lb) :
    (setLineBits st lb).line_bits = lb := rfl

@[simp] theorem setLineBits_arc (st : CoverageData) (lb) :
    (setLineBits st lb).arc = st.arc := rfl

@[simp] theorem setLineBits_tracer (st : CoverageData) (lb) :
    (setLineBits st lb).tracer = st.tracer := rfl

@[simp] theorem setLineBits_current_context (st : CoverageData) (lb) :
    (setLineBits st lb).current_context = st.current_context := rfl

@[simp] theorem setLineBits_query (st : CoverageData) (lb) :
    (setLineBits st lb).query_context_ids = st.query_context_ids := rfl

@[simp] theorem setArc_has_lines (st : CoverageData) (rows) :
    (setArc st rows).has_lines = st.has_lines := rfl

@[simp] theorem setArc_has_arcs (st : CoverageData) (rows) :
    (setArc st rows).has_arcs = st.has_arcs := rfl

@[simp] theorem setArc_meta (st : CoverageData) (rows) :
    (setArc st rows).meta_has_arcs = st.meta_has_arcs := rfl

@[simp] theorem setArc_file (st : CoverageData) (rows) :
    (setArc st rows).file = st.file := rfl

@[simp] theorem setArc_next_file_id (st : CoverageData) (rows) :
    (setArc st rows).next_file_id = st.next_file_id := rfl

@[simp] theorem setArc_context (st : CoverageData) (rows) :
    (setArc st rows).context = st.context := rfl

@[simp] theorem setArc_next_context_id (st : CoverageData) (rows) :
    (setArc st rows).next_context_id = st.next_context_id := rfl

@[simp] theorem setArc_line_bits (st : CoverageData) (rows) :
    (setArc st rows).line_bits = st.line_bits := rfl

@[simp] theorem setArc_arc (st : CoverageData) (rows) :
    (setArc st rows).arc = rows := rfl

@[simp] theorem setArc_tracer (st : CoverageData) (rows) :
    (setArc st rows).tracer = st.tracer := rfl

@[simp] theorem setArc_current_context (st : CoverageData) (rows) :
    (setArc st rows).current_context = st.current_context := rfl

@[simp] theorem setArc_query (st : CoverageData) (rows) :
    (setArc st rows).query_context_ids = st.query_context_ids := rfl

@[simp] theorem setTracer_has_lines (st : CoverageData) (rows) :
    (setTracer st rows).has_lines = st.has_lines := rfl

@[simp] theorem setTracer_has_arcs (st : CoverageData) (rows) :
    (setTracer st rows).has_arcs = st.has_arcs := rfl

@[simp] theorem setTracer_meta (st : CoverageData) (rows) :
    (setTracer st rows).meta_has_arcs = st.meta_has_arcs := rfl

@[simp] theorem setTracer_file (st : CoverageData) (rows) :
    (setTracer st rows).file = st.file := rfl

@[simp] theorem setTracer_next_file_id (st : CoverageData) (rows) :
    (setTracer st rows).next_file_id = st.next_file_id := rfl

@[simp] theorem setTracer_context (st : CoverageData) (rows) :
    (setTracer st rows).context = st.context := rfl

@[simp] theorem setTracer_next_context_id (st : CoverageData) (rows) :
    (setTracer st rows).next_context_id = st.next_context_id := rfl

@[simp] theorem setTracer_line_bits (st : CoverageData) (rows) :
    (setTracer st rows).line_bits = st.line_bits := rfl

@[simp] theorem setTracer_arc (st : CoverageData) (rows) :
    (setTracer st rows).arc = st.arc := rfl

@[simp] theorem setTracer_tracer (st : CoverageData) (rows) :
    (setTracer st rows).tracer = rows := rfl

@[simp] theorem setTracer_current_context (st : CoverageData) (rows) :
    (setTracer st rows).current_context = st.current_context := rfl

@[simp] theorem setTracer_query (st : CoverageData) (rows) :
    (setTracer st rows).query_context_ids = st.query_context_ids := rfl

/-! ### Destructuring lemmas for `add_lines` and `add_arcs` -/

theorem add_lines_nil (s : CoverageData) :
    add_lines s [] = choose_lines_or_arcs s true false := by
  unfold add_lines
  cases hc : choose_lines_or_arcs s true false with
  | error e => rfl
  | ok s1 => rfl

theorem add_arcs_nil (s : CoverageData) :
    add_arcs s [] = choose_lines_or_arcs s false true := by
  unfold add_arcs
  cases hc : choose_lines_or_arcs s false true with
  | error e => rfl
  | ok s1 => rfl

theorem add_lines_ok_dest {s s' : CoverageData} {d : List (String × Finset Nat)}
    (h : add_lines s d = Except.ok s') :
    ∃ s1, choose_lines_or_arcs s true false = Except.ok s1 ∧
      ((d = [] ∧ s' = s1) ∨
       (d ≠ [] ∧ s' = d.foldl (add_lines_write (set_context_id s1).2) (set_context_id s1).1)) := by
  unfold add_lines at h
  cases hc : choose_lines_or_arcs s true false with
  | error e =>
    rw [hc] at h
    have h2 : (Except.error e : Except String CoverageData) = Except.ok s' := h
    cases h2
  | ok s1 =>
    rw [hc] at h
    refine ⟨s1, rfl, ?_⟩
    cases d with
    | nil =>
      have h2 : Except.ok s1 = Except.ok s' := h
      cases h2
      exact Or.inl ⟨rfl, rfl⟩
    | cons hd0 tl =>
      right
      refine ⟨by simp, ?_⟩
      have h2 : Except.ok ((hd0 :: tl).foldl (add_lines_write (set_context_id s1).2)
          (set_context_id s1).1) = Except.ok s' := h
      cases h2
      rfl

theorem add_arcs_ok_dest {s s' : CoverageData} {d : List (String × List (Int × Int))}
    (h : add_arcs s d = Except.ok s') :
    ∃ s1, choose_lines_or_arcs s false true = Except.ok s1 ∧
      ((d = [] ∧ s' = s1) ∨
       (d ≠ [] ∧ s' = d.foldl (add_arcs_write (set_context_id s1).2) (set_context_id s1).1)) := by
  unfold add_arcs at h
  cases hc : choose_lines_or_arcs s false true with
  | error e =>
    rw [hc] at h
    have h2 : (Except.error e : Except String CoverageData) = Except.ok s' := h
    cases h2
  | ok s1 =>
    rw [hc] at h
    refine ⟨s1, rfl, ?_⟩
    cases d with
    | nil =>
      have h2 : Except.ok s1 = Except.ok s' := h
      cases h2
      exact Or.inl ⟨rfl, rfl⟩
    | cons hd0 tl =>
      right
      refine ⟨by simp, ?_⟩
      have h2 : Except.ok ((hd0 :: tl).foldl (add_arcs_write (set_context_id s1).2)
          (set_context_id s1).1) = Except.ok s' := h
      cases h2
      rfl

@[simp] theorem add_lines_write_has_lines (cid : Nat) (st : CoverageData)
    (fl : String × Finset Nat) : (add_lines_write cid st fl).has_lines = st.has_lines := by
  simp [add_lines_write]

@[simp] theorem add_lines_write_has_arcs (cid : Nat) (st : CoverageData)
    (fl : String × Finset Nat) : (add_lines_write cid st fl).has_arcs = st.has_arcs := by
  simp [add_lines_write]

@[simp] theorem add_lines_write_meta (cid : Nat) (st : CoverageData)
    (fl : String × Finset Nat) : (add_lines_write cid st fl).meta_has_arcs = st.meta_has_arcs := by
  simp [add_lines_write]

@[simp] theorem add_lines_write_context (cid : Nat) (st : CoverageData)
    (fl : String × Finset Nat) : (add_lines_write cid st fl).context = st.context := by
  simp [add_lines_write]

@[simp] theorem add_lines_write_next_context_id (cid : Nat) (st : CoverageData)
    (fl : String × Finset Nat) :
    (add_lines_write cid st fl).next_context_id = st.next_context_id := by
  simp [add_lines_write]

@[simp] theorem add_lines_write_arc (cid : Nat) (st : CoverageData)
    (fl : String × Finset Nat) : (add_lines_write cid st fl).arc = st.arc := by
  simp [add_lines_write]

@[simp] theorem add_lines_write_tracer (cid : Nat) (st : CoverageData)
    (fl : String × Finset Nat) : (add_lines_write cid st fl).tracer = st.tracer := by
  simp [add_lines_write]

@[simp] theorem add_lines_write_current_context (cid : Nat) (st : CoverageData)
    (fl : String × Finset Nat) :
    (add_lines_write cid st fl).current_context = st.current_context := by
  simp [add_lines_write]

@[simp] theorem add_lines_write_query (cid : Nat) (st : CoverageData)
    (fl : String × Finset Nat) :
    (add_lines_write cid st fl).query_context_ids = st.query_context_ids := by
  simp [add_lines_write]

@[simp] theorem add_arcs_write_has_lines (cid : Nat) (st : CoverageData)
    (fa : String × List (Int × Int)) : (add_arcs_write cid st fa).has_lines = st.has_lines := by
  unfold add_arcs_write; split <;> simp

@[simp] theorem add_arcs_write_has_arcs (cid : Nat) (st : CoverageData)
    (fa : String × List (Int × Int)) : (add_arcs_write cid st fa).has_arcs = st.has_arcs := by
  unfold add_arcs_write; split <;> simp

@[simp] theorem add_arcs_write_meta (cid : Nat) (st : CoverageData)
    (fa : String × List (Int × Int)) :
    (add_arcs_write cid st fa).meta_has_arcs = st.meta_has_arcs := by
  unfold add_arcs_write; split <;> simp

@[simp] theorem add_arcs_write_line_bits (cid : Nat) (st : CoverageData)
    (fa : String × List (Int × Int)) : (add_arcs_write cid st fa).line_bits = st.line_bits := by
  unfold add_arcs_write; split <;> simp

theorem add_lines_ok_flags {s s' : CoverageData} {d : List (String × Finset Nat)}
    (h : add_lines s d = Except.ok s') : s'.has_lines = true ∧ s'.has_arcs = false := by
  obtain ⟨s1, hc, hcase⟩ := add_lines_ok_dest h
  obtain ⟨hL, hA⟩ := choose_lines_ok_flags hc
  rcases hcase with ⟨_, rfl⟩ | ⟨_, rfl⟩
  · exact ⟨hL, hA⟩
  · constructor
    · refine foldl_induction _ (fun t : CoverageData => t.has_lines = true) _ _ (by simp [hL]) ?_
      intro t a _ ht
      simpa using ht
    · refine foldl_induction _ (fun t : CoverageData => t.has_arcs = false) _ _ (by simp [hA]) ?_
      intro t a _ ht
      simpa using ht

theorem add_arcs_ok_flags {s s' : CoverageData} {d : List (String × List (Int × Int))}
    (h : add_arcs s d = Except.ok s') : s'.has_arcs = true ∧ s'.has_lines = false := by
  obtain ⟨s1, hc, hcase⟩ := add_arcs_ok_dest h
  obtain ⟨hA, hL⟩ := choose_arcs_ok_flags hc
  rcases hcase with ⟨_, rfl⟩ | ⟨_, rfl⟩
  · exact ⟨hA, hL⟩
  · constructor
    · refine foldl_induction _ (fun t : CoverageData => t.has_arcs = true) _ _ (by simp [hA]) ?_
      intro t a _ ht
      simpa using ht
    · refine foldl_induction _ (fun t : CoverageData => t.has_lines = false) _ _ (by simp [hL]) ?_
      intro t a _ ht
      simpa using ht

end CoverageData

/-! ### A fold-with-errors induction principle -/

theorem foldlM_induction {α σ : Type} (f : σ → α → Except String σ) (P : σ → Prop) :
    ∀ (xs : List α) (s s' : σ), xs.foldlM f s = Except.ok s' → P s →
      (∀ t a t', a ∈ xs → f t a = Except.ok t' → P t → P t') → P s'
  | [], s, s', h, h0, _ => by
    have h2 : Except.ok s = Except.ok s' := h
    cases h2
    exact h0
  | hd :: tl, s, s', h, h0, hstep => by
    rw [List.foldlM_cons] at h
    cases hf : f s hd with
    | error e =>
      rw [hf] at h
      have h2 : (Except.error e : Except String σ) = Except.ok s' := h
      cases h2
    | ok t =>
      rw [hf] at h
      exact foldlM_induction f P tl t s' h
        (hstep s hd t (List.mem_cons_self hd tl) hf h0)
        (fun t2 a t2' ha => hstep t2 a t2' (List.mem_cons_of_mem _ ha))

/-! ### Error propagation through `add_lines` / `add_arcs` -/

namespace CoverageData

theorem add_lines_choose_error {s : CoverageData} {m : String}
    (h : choose_lines_or_arcs s true false = Except.error m)
    (d : List (String × Finset Nat)) : add_lines s d = Except.error m := by
  unfold add_lines
  rw [h]
  rfl

theorem add_arcs_choose_error {s : CoverageData} {m : String}
    (h : choose_lines_or_arcs s false true = Except.error m)
    (d : List (String × List (Int × Int))) : add_arcs s d = Except.error m := by
  unfold add_arcs
  rw [h]
  rfl

theorem add_lines_on_arcs_error {s : CoverageData} (h : s.has_arcs = true)
    (d : List (String × Finset Nat)) :
    add_lines s d = Except.error "Can't add line measurements to existing branch data" :=
  add_lines_choose_error (choose_lines_conflict h) d

theorem add_arcs_on_lines_error {s : CoverageData} (h : s.has_lines = true)
    (d : List (String × List (Int × Int))) :
    add_arcs s d = Except.error "Can't add branch measurements to existing line data" :=
  add_arcs_choose_error (choose_arcs_conflict h) d

/-! ### Component preservation through the tracer and touch loops -/

theorem add_file_tracers_step_components {st t' : CoverageData} {ft : String × String}
    (h : add_file_tracers_step st ft = Except.ok t') :
    t'.has_lines = st.has_lines ∧ t'.has_arcs = st.has_arcs ∧
    t'.meta_has_arcs = st.meta_has_arcs ∧ t'.context = st.context ∧
    t'.next_context_id = st.next_context_id ∧ t'.line_bits = st.line_bits ∧
    t'.arc = st.arc ∧ t'.current_context = st.current_context ∧
    t'.query_context_ids = st.query_context_ids := by
  unfold add_file_tracers_step at h
  split at h
  · split at h
    · split at h
      · cases h
      · cases h
        simp
    · split at h
      · cases h
        simp
      · cases h
        simp
  · split at h
    · cases h
      simp
    · cases h
      simp

theorem add_file_tracers_ok_components {s s' : CoverageData} {fts : List (String × String)}
    (h : add_file_tracers s fts = Except.ok s') :
    s'.has_lines = s.has_lines ∧ s'.has_arcs = s.has_arcs ∧
    s'.meta_has_arcs = s.meta_has_arcs ∧ s'.context = s.context ∧
    s'.next_context_id = s.next_context_id ∧ s'.line_bits = s.line_bits ∧
    s'.arc = s.arc ∧ s'.current_context = s.current_context ∧
    s'.query_context_ids = s.query_context_ids := by
  unfold add_file_tracers at h
  split at h
  · cases h
    exact ⟨rfl, rfl, rfl, rfl, rfl, rfl, rfl, rfl, rfl⟩
  · refine foldlM_induction _ (fun t : CoverageData => t.has_lines = s.has_lines ∧
      t.has_arcs = s.has_arcs ∧ t.meta_has_arcs = s.meta_has_arcs ∧ t.context = s.context ∧
      t.next_context_id = s.next_context_id ∧ t.line_bits = s.line_bits ∧ t.arc = s.arc ∧
      t.current_context = s.current_context ∧ t.query_context_ids = s.query_context_ids)
      fts s s' h ⟨rfl, rfl, rfl, rfl, rfl, rfl, rfl, rfl, rfl⟩ ?_
    intro t a t' _ hstep ht
    obtain ⟨c1, c2, c3, c4, c5, c6, c7, c8, c9⟩ := add_file_tracers_step_components hstep
    obtain ⟨d1, d2, d3, d4, d5, d6, d7, d8, d9⟩ := ht
    exact ⟨c1.trans d1, c2.trans d2, c3.trans d3, c4.trans d4, c5.trans d5,
      c6.trans d6, c7.trans d7, c8.trans d8, c9.trans d9⟩

theorem touch_files_step_components {st t' : CoverageData} {p : Option String} {f : String}
    (h : touch_files_step p st f = Except.ok t') :
    t'.has_lines = st.has_lines ∧ t'.has_arcs = st.has_arcs ∧
    t'.meta_has_arcs = st.meta_has_arcs ∧ t'.context = st.context ∧
    t'.next_context_id = st.next_context_id ∧ t'.line_bits = st.line_bits ∧
    t'.arc = st.arc ∧ t'.current_context = st.current_context ∧
    t'.query_context_ids = st.query_context_ids := by
  unfold touch_files_step at h
  split at h
  · split at h
    · obtain ⟨c1, c2, c3, c4, c5, c6, c7, c8, c9⟩ := add_file_tracers_ok_components h
      simp only [file_id_add_has_lines, file_id_add_has_arcs, file_id_add_meta,
        file_id_add_context, file_id_add_next_context_id, file_id_add_line_bits,
        file_id_add_arc, file_id_add_current_context, file_id_add_query] at c1 c2 c3 c4 c5 c6 c7 c8 c9
      exact ⟨c1, c2, c3, c4, c5, c6, c7, c8, c9⟩
    · cases h
      simp
  · cases h
    simp

theorem touch_files_ok_components {s s' : CoverageData} {fnames : List String}
    {p : Option String} (h : touch_files s fnames p = Except.ok s') :
    s'.has_lines = s.has_lines ∧ s'.has_arcs = s.has_arcs ∧
    s'.meta_has_arcs = s.meta_has_arcs ∧ s'.context = s.context ∧
    s'.line_bits = s.line_bits ∧ s'.arc = s.arc := by
  unfold touch_files at h
  split at h
  · cases h
  · refine foldlM_induction _ (fun t : CoverageData => t.has_lines = s.has_lines ∧
      t.has_arcs = s.has_arcs ∧ t.meta_has_arcs = s.meta_has_arcs ∧ t.context = s.context ∧
      t.line_bits = s.line_bits ∧ t.arc = s.arc)
      fnames s s' h ⟨rfl, rfl, rfl, rfl, rfl, rfl⟩ ?_
    intro t a t' _ hstep ht
    obtain ⟨c1, c2, c3, c4, _, c6, c7, _, _⟩ := touch_files_step_components hstep
    obtain ⟨d1, d2, d3, d4, d6, d7⟩ := ht
    exact ⟨c1.trans d1, c2.trans d2, c3.trans d3, c4.trans d4, c6.trans d6, c7.trans d7⟩

end CoverageData

/-! ### Component lemmas for `purge_files`, `stageTables` and `updateApply` -/

namespace CoverageData

theorem purge_files_ok_components {s s' : CoverageData} {fnames : List String}
    (h : purge_files s fnames = Except.ok s') :
    s'.has_lines = s.has_lines ∧ s'.has_arcs = s.has_arcs ∧
    s'.meta_has_arcs = s.meta_has_arcs ∧ s'.file = s.file ∧ s'.context = s.context ∧
    s'.tracer = s.tracer ∧ s'.current_context = s.current_context ∧
    s'.query_context_ids = s.query_context_ids := by
  unfold purge_files at h
  split at h
  · cases h
    unfold purge_lines_run
    refine foldl_induction _ (fun t : CoverageData => t.has_lines = s.has_lines ∧
      t.has_arcs = s.has_arcs ∧ t.meta_has_arcs = s.meta_has_arcs ∧ t.file = s.file ∧
      t.context = s.context ∧ t.tracer = s.tracer ∧ t.current_context = s.current_context ∧
      t.query_context_ids = s.query_context_ids) _ _
      ⟨rfl, rfl, rfl, rfl, rfl, rfl, rfl, rfl⟩ ?_
    intro t a _ ht
    obtain ⟨d1, d2, d3, d4, d5, d6, d7, d8⟩ := ht
    cases halo : alookup t.file a with
    | none => simpa [halo] using ⟨d1, d2, d3, d4, d5, d6, d7, d8⟩
    | some fid => simpa [halo] using ⟨d1, d2, d3, d4, d5, d6, d7, d8⟩
  · split at h
    · cases h
      unfold purge_arcs_run
      refine foldl_induction _ (fun t : CoverageData => t.has_lines = s.has_lines ∧
        t.has_arcs = s.has_arcs ∧ t.meta_has_arcs = s.meta_has_arcs ∧ t.file = s.file ∧
        t.context = s.context ∧ t.tracer = s.tracer ∧ t.current_context = s.current_context ∧
        t.query_context_ids = s.query_context_ids) _ _
        ⟨rfl, rfl, rfl, rfl, rfl, rfl, rfl, rfl⟩ ?_
      intro t a _ ht
      obtain ⟨d1, d2, d3, d4, d5, d6, d7, d8⟩ := ht
      cases halo : alookup t.file a with
      | none => simpa [halo] using ⟨d1, d2, d3, d4, d5, d6, d7, d8⟩
      | some fid => simpa [halo] using ⟨d1, d2, d3, d4, d5, d6, d7, d8⟩
    · cases h

theorem stageTables_components (a : CoverageData) (files : List (String × String))
    (bcontexts : List String) :
    (stageTables a files bcontexts).has_lines = a.has_lines ∧
    (stageTables a files bcontexts).has_arcs = a.has_arcs ∧
    (stageTables a files bcontexts).meta_has_arcs = a.meta_has_arcs ∧
    (stageTables a files bcontexts).line_bits = a.line_bits ∧
    (stageTables a files bcontexts).arc = a.arc ∧
    (stageTables a files bcontexts).tracer = a.tracer ∧
    (stageTables a files bcontexts).current_context = a.current_context ∧
    (stageTables a files bcontexts).query_context_ids = a.query_context_ids := by
  unfold stageTables
  have hinner : ∀ P : CoverageData → Prop,
      P a →
      (∀ t p, P t → P (insertFileIgnore t p)) →
      (∀ t c, P t → P (insertContextIgnore t c)) →
      P (bcontexts.foldl insertContextIgnore
        (files.foldl (fun st pr => insertFileIgnore st pr.2) a)) := by
    intro P h0 hf hc
    refine foldl_induction _ P _ _ ?_ (fun t c _ ht => hc t c ht)
    exact foldl_induction _ P _ _ h0 (fun t pr _ ht => hf t pr.2 ht)
  refine hinner (fun t : CoverageData => t.has_lines = a.has_lines ∧
    t.has_arcs = a.has_arcs ∧ t.meta_has_arcs = a.meta_has_arcs ∧
    t.line_bits = a.line_bits ∧ t.arc = a.arc ∧ t.tracer = a.tracer ∧
    t.current_context = a.current_context ∧ t.query_context_ids = a.query_context_ids)
    ⟨rfl, rfl, rfl, rfl, rfl, rfl, rfl, rfl⟩ ?_ ?_
  · intro t p ht
    obtain ⟨d1, d2, d3, d4, d5, d6, d7, d8⟩ := ht
    simpa using ⟨d1, d2, d3, d4, d5, d6, d7, d8⟩
  · intro t c ht
    obtain ⟨d1, d2, d3, d4, d5, d6, d7, d8⟩ := ht
    simpa using ⟨d1, d2, d3, d4, d5, d6, d7, d8⟩

theorem updateApply_ok_dest {a : CoverageData} {files : List (String × String)}
    {bcontexts : List String} {barcs : List (String × String × Int × Int)}
    {blines : List ((String × String) × Finset Nat)} {btracers tts : List (String × String)}
    {s' : CoverageData}
    (h : updateApply a files bcontexts barcs blines btracers tts = Except.ok s') :
    ∃ tm st3 st5,
      buildTracerMap tts btracers (files.map Prod.snd) = Except.ok tm ∧
      ((barcs = [] ∧ st3 = stageTables a files bcontexts) ∨
        (barcs ≠ [] ∧ choose_lines_or_arcs (stageTables a files bcontexts) false true =
          Except.ok st3)) ∧
      ((blines = [] ∧ st5 = updArc (stageTables a files bcontexts) st3 barcs) ∨
        (blines ≠ [] ∧ choose_lines_or_arcs (updArc (stageTables a files bcontexts) st3 barcs)
          true false = Except.ok st5)) ∧
      s' = updTracer (stageTables a files bcontexts)
        (updLines (stageTables a files bcontexts) st5 blines) tm := by
  unfold updateApply at h
  cases htm : buildTracerMap tts btracers (files.map Prod.snd) with
  | error e =>
    rw [htm] at h
    have h2 : (Except.error e : Except String CoverageData) = Except.ok s' := h
    cases h2
  | ok tm =>
    rw [htm] at h
    refine ⟨tm, ?_⟩
    cases barcs with
    | nil =>
      cases blines with
      | nil =>
        have h2 : Except.ok (updTracer (stageTables a files bcontexts)
            (updLines (stageTables a files bcontexts)
              (updArc (stageTables a files bcontexts) (stageTables a files bcontexts) [])
              []) tm) = Except.ok s' := h
        cases h2
        exact ⟨_, _, rfl, Or.inl ⟨rfl, rfl⟩, Or.inl ⟨rfl, rfl⟩, rfl⟩
      | cons lh lt =>
        replace h : (choose_lines_or_arcs
            (updArc (stageTables a files bcontexts) (stageTables a files bcontexts) [])
            true false >>= fun st5 => pure (updTracer (stageTables a files bcontexts)
              (updLines (stageTables a files bcontexts) st5 (lh :: lt)) tm)) =
            Except.ok s' := h
        cases hc5 : choose_lines_or_arcs
            (updArc (stageTables a files bcontexts) (stageTables a files bcontexts) [])
            true false with
        | error e =>
          rw [hc5] at h
          have h2 : (Except.error e : Except String CoverageData) = Except.ok s' := h
          cases h2
        | ok st5 =>
          rw [hc5] at h
          have h2 : Except.ok (updTracer (stageTables a files bcontexts)
              (updLines (stageTables a files bcontexts) st5 (lh :: lt)) tm) = Except.ok s' := h
          cases h2
          exact ⟨_, st5, rfl, Or.inl ⟨rfl, rfl⟩, Or.inr ⟨by simp, hc5⟩, rfl⟩
    | cons bh bt =>
      replace h : (choose_lines_or_arcs (stageTables a files bcontexts) false true >>=
          fun st3 =>
            if blines.isEmpty = true then
              (pure (updArc (stageTables a files bcontexts) st3 (bh :: bt)) >>=
                fun st5 => pure (updTracer (stageTables a files bcontexts)
                  (updLines (stageTables a files bcontexts) st5 blines) tm))
            else
              (choose_lines_or_arcs (updArc (stageTables a files bcontexts) st3 (bh :: bt))
                  true false >>=
                fun st5 => pure (updTracer (stageTables a files bcontexts)
                  (updLines (stageTables a files bcontexts) st5 blines) tm))) =
          Except.ok s' := h
      cases hc3 : choose_lines_or_arcs (stageTables a files bcontexts) false true with
      | error e =>
        rw [hc3] at h
        have h2 : (Except.error e : Except String CoverageData) = Except.ok s' := h
        cases h2
      | ok st3 =>
        rw [hc3] at h
        cases blines with
        | nil =>
          have h2 : Except.ok (updTracer (stageTables a files bcontexts)
              (updLines (stageTables a files bcontexts)
                (updArc (stageTables a files bcontexts) st3 (bh :: bt)) []) tm)
              = Except.ok s' := h
          cases h2
          exact ⟨st3, _, rfl, Or.inr ⟨by simp, rfl⟩, Or.inl ⟨rfl, rfl⟩, rfl⟩
        | cons lh lt =>
          replace h : (choose_lines_or_arcs
              (updArc (stageTables a files bcontexts) st3 (bh :: bt)) true false >>=
              fun st5 => pure (updTracer (stageTables a files bcontexts)
                (updLines (stageTables a files bcontexts) st5 (lh :: lt)) tm)) =
              Except.ok s' := h
          cases hc5 : choose_lines_or_arcs
              (updArc (stageTables a files bcontexts) st3 (bh :: bt)) true false with
          | error e =>
            rw [hc5] at h
            have h2 : (Except.error e : Except String CoverageData) = Except.ok s' := h
            cases h2
          | ok st5 =>
            rw [hc5] at h
            have h2 : Except.ok (updTracer (stageTables a files bcontexts)
                (updLines (stageTables a files bcontexts) st5 (lh :: lt)) tm)
                = Except.ok s' := h
            cases h2
            exact ⟨st3, st5, rfl, Or.inr ⟨by simp, rfl⟩, Or.inr ⟨by simp, hc5⟩, rfl⟩

@[simp] theorem updArc_has_lines (t st3 : CoverageData) (barcs) :
    (updArc t st3 barcs).has_lines = st3.has_lines := rfl

@[simp] theorem updArc_has_arcs (t st3 : CoverageData) (barcs) :
    (updArc t st3 barcs).has_arcs = st3.has_arcs := rfl

@[simp] theorem updArc_meta (t st3 : CoverageData) (barcs) :
    (updArc t st3 barcs).meta_has_arcs = st3.meta_has_arcs := rfl

@[simp] theorem updArc_file (t st3 : CoverageData) (barcs) :
    (updArc t st3 barcs).file = st3.file := rfl

@[simp] theorem updArc_context (t st3 : CoverageData) (barcs) :
    (updArc t st3 barcs).context = st3.context := rfl

@[simp] theorem updArc_line_bits (t st3 : CoverageData) (barcs) :
    (updArc t st3 barcs).line_bits = st3.line_bits := rfl

@[simp] theorem updArc_tracer (t st3 : CoverageData) (barcs) :
    (updArc t st3 barcs).tracer = st3.tracer := rfl

@[simp] theorem updLines_has_lines (t st5 : CoverageData) (blines) :
    (updLines t st5 blines).has_lines = st5.has_lines := rfl

@[simp] theorem updLines_has_arcs (t st5 : CoverageData) (blines) :
    (updLines t st5 blines).has_arcs = st5.has_arcs := rfl

@[simp] theorem updLines_meta (t st5 : CoverageData) (blines) :
    (updLines t st5 blines).meta_has_arcs = st5.meta_has_arcs := rfl

@[simp] theorem updLines_file (t st5 : CoverageData) (blines) :
    (updLines t st5 blines).file = st5.file := rfl

@[simp] theorem updLines_context (t st5 : CoverageData) (blines) :
    (updLines t st5 blines).context = st5.context := rfl

@[simp] theorem updLines_arc (t st5 : CoverageData) (blines) :
    (updLines t st5 blines).arc = st5.arc := rfl

@[simp] theorem updLines_tracer (t st5 : CoverageData) (blines) :
    (updLines t st5 blines).tracer = st5.tracer := rfl

@[simp] theorem updTracer_has_lines (t st6 : CoverageData) (tm) :
    (updTracer t st6 tm).has_lines = st6.has_lines := rfl

@[simp] theorem updTracer_has_arcs (t st6 : CoverageData) (tm) :
    (updTracer t st6 tm).has_arcs = st6.has_arcs := rfl

@[simp] theorem updTracer_meta (t st6 : CoverageData) (tm) :
    (updTracer t st6 tm).meta_has_arcs = st6.meta_has_arcs := rfl

@[simp] theorem updTracer_file (t st6 : CoverageData) (tm) :
    (updTracer t st6 tm).file = st6.file := rfl

@[simp] theorem updTracer_context (t st6 : CoverageData) (tm) :
    (updTracer t st6 tm).context = st6.context := rfl

@[simp] theorem updTracer_line_bits (t st6 : CoverageData) (tm) :
    (updTracer t st6 tm).line_bits = st6.line_bits := rfl

@[simp] theorem updTracer_arc (t st6 : CoverageData) (tm) :
    (updTracer t st6 tm).arc = st6.arc := rfl

theorem update_ok_mode {a b : CoverageData} {mp : String → String} {s' : CoverageData}
    (h : update a b mp = Except.ok s') (hm : ModeOK a) : ModeOK s' := by
  unfold update at h
  split at h
  · cases h
  · split at h
    · cases h
    · obtain ⟨tm, st3, st5, _, hst3, hst5, rfl⟩ := updateApply_ok_dest h
      obtain ⟨e1, e2, _⟩ := stageTables_components a (filesOf b mp) (b.context.map Prod.fst)
      have hst3m : ¬(st3.has_lines = true ∧ st3.has_arcs = true) := by
        rcases hst3 with ⟨_, rfl⟩ | ⟨_, hc⟩
        · rw [e1, e2]
          exact hm
        · obtain ⟨hA, hL⟩ := choose_arcs_ok_flags hc
          simp [hA, hL]
      have hst5m : ¬(st5.has_lines = true ∧ st5.has_arcs = true) := by
        rcases hst5 with ⟨_, rfl⟩ | ⟨_, hc⟩
        · simpa using hst3m
        · obtain ⟨hL, hA⟩ := choose_lines_ok_flags hc
          simp [hA, hL]
      simpa [ModeOK] using hst5m

end CoverageData

/-! ### Error shapes of `choose_lines_or_arcs`, `buildTracerMap` and `updateApply` -/

namespace CoverageData

theorem choose_lines_error_imp {s : CoverageData} {e : String}
    (h : choose_lines_or_arcs s true false = Except.error e) :
    s.has_arcs = true ∧ e = "Can't add line measurements to existing branch data" := by
  cases hA : s.has_arcs with
  | true =>
    rw [choose_lines_conflict hA] at h
    cases h
    exact ⟨rfl, rfl⟩
  | false =>
    cases hL : s.has_lines with
    | false =>
      rw [choose_commit hL hA] at h
      cases h
    | true =>
      rw [choose_noop_lines hL hA] at h
      cases h

theorem choose_arcs_error_imp {s : CoverageData} {e : String}
    (h : choose_lines_or_arcs s false true = Except.error e) :
    s.has_lines = true ∧ e = "Can't add branch measurements to existing line data" := by
  cases hL : s.has_lines with
  | true =>
    rw [choose_arcs_conflict hL] at h
    cases h
    exact ⟨rfl, rfl⟩
  | false =>
    cases hA : s.has_arcs with
    | false =>
      rw [choose_commit hL hA] at h
      cases h
    | true =>
      rw [choose_noop_arcs hA hL] at h
      cases h

theorem arcsOf_nil {b : CoverageData} (h : b.arc = []) (mp : String → String) :
    arcsOf b mp = [] := by
  unfold arcsOf
  rw [h]
  rfl

theorem linesOf_nil {b : CoverageData} (h : b.line_bits = []) (mp : String → String) :
    linesOf b mp = [] := by
  unfold linesOf
  rw [h]
  rfl

theorem buildTracerMap_step_error_shape {tts btr tm : List (String × String)} {path : String}
    {e : String} (h : buildTracerMap_step tts btr tm path = Except.error e) :
    ∃ p t1 t2, e = tracer_conflict_msg p t1 t2 := by
  unfold buildTracerMap_step at h
  split at h
  · split at h
    · cases h
    · cases h
      exact ⟨_, _, _, rfl⟩
  · cases h

end CoverageData

theorem foldlM_error_shape {α σ : Type} (f : σ → α → Except String σ) (Q : String → Prop)
    (hstep : ∀ t a e, f t a = Except.error e → Q e) :
    ∀ (xs : List α) (s : σ) (e : String), xs.foldlM f s = Except.error e → Q e
  | [], s, e, h => by
    have h2 : (Except.ok s : Except String σ) = Except.error e := h
    cases h2
  | hd :: tl, s, e, h => by
    rw [List.foldlM_cons] at h
    cases hf : f s hd with
    | error e2 =>
      rw [hf] at h
      have h2 : (Except.error e2 : Except String σ) = Except.error e := h
      cases h2
      exact hstep s hd e hf
    | ok t =>
      rw [hf] at h
      exact foldlM_error_shape f Q hstep tl t e h

namespace CoverageData

theorem buildTracerMap_error_shape {tts btr : List (String × String)} {paths : List String}
    {e : String} (h : buildTracerMap tts btr paths = Except.error e) :
    ∃ p t1 t2, e = tracer_conflict_msg p t1 t2 :=
  foldlM_error_shape _ _ (fun _ _ _ hf => buildTracerMap_step_error_shape hf) paths [] e h

theorem updateApply_error_dest {a : CoverageData} {files : List (String × String)}
    {bcontexts : List String} {barcs : List (String × String × Int × Int)}
    {blines : List ((String × String) × Finset Nat)} {btracers tts : List (String × String)}
    {e : String}
    (h : updateApply a files bcontexts barcs blines btracers tts = Except.error e) :
    buildTracerMap tts btracers (files.map Prod.snd) = Except.error e ∨
    (barcs ≠ [] ∧ choose_lines_or_arcs (stageTables a files bcontexts) false true =
      Except.error e) ∨
    (blines ≠ [] ∧ ∃ st3,
      ((barcs = [] ∧ st3 = stageTables a files bcontexts) ∨
        (barcs ≠ [] ∧ choose_lines_or_arcs (stageTables a files bcontexts) false true =
          Except.ok st3)) ∧
      choose_lines_or_arcs (updArc (stageTables a files bcontexts) st3 barcs) true false =
        Except.error e) := by
  unfold updateApply at h
  cases htm : buildTracerMap tts btracers (files.map Prod.snd) with
  | error e2 =>
    rw [htm] at h
    have h2 : (Except.error e2 : Except String CoverageData) = Except.error e := h
    cases h2
    exact Or.inl rfl
  | ok tm =>
    rw [htm] at h
    cases barcs with
    | nil =>
      cases blines with
      | nil =>
        have h2 : Except.ok (updTracer (stageTables a files bcontexts)
            (updLines (stageTables a files bcontexts)
              (updArc (stageTables a files bcontexts) (stageTables a files bcontexts) [])
              []) tm) = Except.error e := h
        cases h2
      | cons lh lt =>
        replace h : (choose_lines_or_arcs
            (updArc (stageTables a files bcontexts) (stageTables a files bcontexts) [])
            true false >>= fun st5 => pure (updTracer (stageTables a files bcontexts)
              (updLines (stageTables a files bcontexts) st5 (lh :: lt)) tm)) =
            Except.error e := h
        cases hc5 : choose_lines_or_arcs
            (updArc (stageTables a files bcontexts) (stageTables a files bcontexts) [])
            true false with
        | error e2 =>
          rw [hc5] at h
          have h2 : (Except.error e2 : Except String CoverageData) = Except.error e := h
          cases h2
          exact Or.inr (Or.inr ⟨by simp, _, Or.inl ⟨rfl, rfl⟩, hc5⟩)
        | ok st5 =>
          rw [hc5] at h
          have h2 : Except.ok (updTracer (stageTables a files bcontexts)
              (updLines (stageTables a files bcontexts) st5 (lh :: lt)) tm) =
              Except.error e := h
          cases h2
    | cons bh bt =>
      replace h : (choose_lines_or_arcs (stageTables a files bcontexts) false true >>=
          fun st3 =>
            if blines.isEmpty = true then
              (pure (updArc (stageTables a files bcontexts) st3 (bh :: bt)) >>=
                fun st5 => pure (updTracer (stageTables a files bcontexts)
                  (updLines (stageTables a files bcontexts) st5 blines) tm))
            else
              (choose_lines_or_arcs (updArc (stageTables a files bcontexts) st3 (bh :: bt))
                  true false >>=
                fun st5 => pure (updTracer (stageTables a files bcontexts)
                  (updLines (stageTables a files bcontexts) st5 blines) tm))) =
          Except.error e := h
      cases hc3 : choose_lines_or_arcs (stageTables a files bcontexts) false true with
      | error e2 =>
        rw [hc3] at h
        have h2 : (Except.error e2 : Except String CoverageData) = Except.error e := h
        cases h2
        exact Or.inr (Or.inl ⟨by simp, rfl⟩)
      | ok st3 =>
        rw [hc3] at h
        cases blines with
        | nil =>
          have h2 : Except.ok (updTracer (stageTables a files bcontexts)
              (updLines (stageTables a files bcontexts)
                (updArc (stageTables a files bcontexts) st3 (bh :: bt)) []) tm)
              = Except.error e := h
          cases h2
        | cons lh lt =>
          replace h : (choose_lines_or_arcs
              (updArc (stageTables a files bcontexts) st3 (bh :: bt)) true false >>=
              fun st5 => pure (updTracer (stageTables a files bcontexts)
                (updLines (stageTables a files bcontexts) st5 (lh :: lt)) tm)) =
              Except.error e := h
          cases hc5 : choose_lines_or_arcs
              (updArc (stageTables a files bcontexts) st3 (bh :: bt)) true false with
          | error e2 =>
            rw [hc5] at h
            have h2 : (Except.error e2 : Except String CoverageData) = Except.error e := h
            cases h2
            exact Or.inr (Or.inr ⟨by simp, st3, Or.inr ⟨by simp, rfl⟩, hc5⟩)
          | ok st5 =>
            rw [hc5] at h
            have h2 : Except.ok (updTracer (stageTables a files bcontexts)
                (updLines (stageTables a files bcontexts) st5 (lh :: lt)) tm)
                = Except.error e := h
            cases h2

end CoverageData

/-! ### Claim C4 -/

namespace CoverageData

/-- C4: `update(other)` raises a mode-conflict error when one of the two
stores is strictly line-mode and the other strictly arc-mode, before any
data is transferred (the error is returned with nothing committed); a store
with no mode yet established accepts an update from a store of either mode —
with a well-formed source, the only error it can still raise is a tracer
conflict, never a mode conflict. -/
theorem update_mode_conflict (a b : CoverageData) (mp : String → String) :
    (a.has_lines = true → a.has_arcs = false → b.has_arcs = true → b.has_lines = false →
      update a b mp = Except.error "Can't combine arc data with line data") ∧
    (a.has_arcs = true → a.has_lines = false → b.has_lines = true → b.has_arcs = false →
      update a b mp = Except.error "Can't combine line data with arc data") ∧
    (a.has_lines = false → a.has_arcs = false → WF b →
      ∀ e, update a b mp = Except.error e → ∃ p t1 t2, e = tracer_conflict_msg p t1 t2) := by
  refine ⟨?_, ?_, ?_⟩
  · intro h1 _ h3 _
    unfold update
    rw [if_pos ⟨h1, h3⟩]
  · intro ha1 hl1 hb1 _
    unfold update
    rw [if_neg (by simp [hl1]), if_pos ⟨ha1, hb1⟩]
  · intro hl ha hwfb e herr
    unfold update at herr
    rw [if_neg (by simp [hl]), if_neg (by simp [ha])] at herr
    rcases updateApply_error_dest herr with htm | ⟨_, hce⟩ | ⟨hlne, st3, hst3, hce⟩
    · exact buildTracerMap_error_shape htm
    · obtain ⟨hLs, _⟩ := choose_arcs_error_imp hce
      obtain ⟨c1, _⟩ := stageTables_components a (filesOf b mp) (b.context.map Prod.fst)
      rw [c1, hl] at hLs
      cases hLs
    · obtain ⟨hAs, _⟩ := choose_lines_error_imp hce
      rw [updArc_has_arcs] at hAs
      rcases hst3 with ⟨_, rfl⟩ | ⟨hbne, _⟩
      · obtain ⟨_, c2, _⟩ := stageTables_components a (filesOf b mp) (b.context.map Prod.fst)
        rw [c2, ha] at hAs
        cases hAs
      · have hbarc : b.arc ≠ [] := fun hh => hbne (arcsOf_nil hh mp)
        have hbline : b.line_bits ≠ [] := fun hh => hlne (linesOf_nil hh mp)
        obtain ⟨_, _, _, _, _, hmx, harcmode, hlinemode, _⟩ := hwfb
        cases hbA : b.has_arcs with
        | false => exact absurd (harcmode hbA) hbarc
        | true =>
          cases hbL : b.has_lines with
          | false => exact absurd (hlinemode hbL) hbline
          | true => exact absurd ⟨hbL, hbA⟩ hmx

/-- Witness for C4 at the sample stores. -/
theorem update_mode_conflict_witness :
    update lineStore arcStore (fun p => p) =
      Except.error "Can't combine arc data with line data" :=
  (update_mode_conflict lineStore arcStore (fun p => p)).1 rfl rfl rfl rfl

/-! ### Claim C10 -/

/-- C10: calling `add_lines` with an empty mapping on a store with no mode
still commits the store to line mode — the mode is chosen and the metadata
flag persisted before the empty-data early return — so a subsequent
`add_arcs` of any data raises a mode-conflict error even though no coverage
data was ever written; symmetrically, an empty `add_arcs` commits arc
mode. -/
theorem empty_add_commits_mode (s : CoverageData)
    (hl : s.has_lines = false) (ha : s.has_arcs = false) (hm : s.meta_has_arcs = none) :
    (∃ s', add_lines s [] = Except.ok s' ∧ s'.has_lines = true ∧ s'.has_arcs = false ∧
      s'.meta_has_arcs = some false ∧ s'.line_bits = s.line_bits ∧ s'.file = s.file ∧
      ∀ d, add_arcs s' d =
        Except.error "Can't add branch measurements to existing line data") ∧
    (∃ s2, add_arcs s [] = Except.ok s2 ∧ s2.has_arcs = true ∧ s2.has_lines = false ∧
      s2.meta_has_arcs = some true ∧ s2.arc = s.arc ∧ s2.file = s.file ∧
      ∀ d, add_lines s2 d =
        Except.error "Can't add line measurements to existing branch data") := by
  constructor
  · have hcc : add_lines s [] = Except.ok { s with
        has_lines := true, has_arcs := false,
        meta_has_arcs := match s.meta_has_arcs with | some v => some v | none => some false } := by
      rw [add_lines_nil]
      exact choose_commit hl ha true false
    exact ⟨_, hcc, rfl, rfl, by simp [hm], rfl, rfl, fun d => add_arcs_on_lines_error rfl d⟩
  · have hcc : add_arcs s [] = Except.ok { s with
        has_lines := false, has_arcs := true,
        meta_has_arcs := match s.meta_has_arcs with | some v => some v | none => some true } := by
      rw [add_arcs_nil]
      exact choose_commit hl ha false true
    exact ⟨_, hcc, rfl, rfl, by simp [hm], rfl, rfl, fun d => add_lines_on_arcs_error rfl d⟩

/-- Witness for C10 at the fresh store. -/
theorem empty_add_commits_mode_witness :
    ∃ s', add_lines empty0 [] = Except.ok s' ∧ s'.has_lines = true ∧ s'.has_arcs = false ∧
      s'.meta_has_arcs = some false ∧ s'.line_bits = empty0.line_bits ∧ s'.file = empty0.file ∧
      ∀ d, add_arcs s' d =
        Except.error "Can't add branch measurements to existing line data" :=
  (empty_add_commits_mode empty0 rfl rfl rfl).1

end CoverageData

/-! ### Claim C3 -/

namespace CoverageData

/-- C3: every store is at all times in one of three states — no mode,
line-mode or arc-mode (every operation preserves the exclusivity of the two
flags); the first successful `add_lines` or `add_arcs` commits the mode (a
successful `add_lines` always leaves a line-mode store, a successful
`add_arcs` an arc-mode store) and, on a fresh store, records it in the
`has_arcs` metadata row; and every call of the opposite kind on a committed
store raises the mode-conflict error (no data is written: the error carries
no new state). -/
theorem mode_tristate :
    (∀ (s s' : CoverageData) (d : List (String × Finset Nat)),
      add_lines s d = Except.ok s' → s'.has_lines = true ∧ s'.has_arcs = false) ∧
    (∀ (s s' : CoverageData) (d : List (String × List (Int × Int))),
      add_arcs s d = Except.ok s' → s'.has_arcs = true ∧ s'.has_lines = false) ∧
    (∀ (s s' : CoverageData) (fts : List (String × String)),
      add_file_tracers s fts = Except.ok s' → ModeOK s → ModeOK s') ∧
    (∀ (s s' : CoverageData) (fn : List String) (p : Option String),
      touch_files s fn p = Except.ok s' → ModeOK s → ModeOK s') ∧
    (∀ (s s' : CoverageData) (fn : List String),
      purge_files s fn = Except.ok s' → ModeOK s → ModeOK s') ∧
    (∀ (s : CoverageData) (c : Option String), ModeOK s → ModeOK (set_context s c)) ∧
    (∀ (s : CoverageData) (c : String), ModeOK s → ModeOK (set_query_context s c)) ∧
    (∀ (s : CoverageData) (cs : Option (List String)),
      ModeOK s → ModeOK (set_query_contexts s cs)) ∧
    (∀ (a b : CoverageData) (mp : String → String) (s' : CoverageData),
      update a b mp = Except.ok s' → ModeOK a → ModeOK s') ∧
    (∀ (s s' : CoverageData) (d : List (String × Finset Nat)),
      s.has_lines = false → s.has_arcs = false → s.meta_has_arcs = none →
      add_lines s d = Except.ok s' → s'.meta_has_arcs = some false) ∧
    (∀ (s s' : CoverageData) (d : List (String × List (Int × Int))),
      s.has_lines = false → s.has_arcs = false → s.meta_has_arcs = none →
      add_arcs s d = Except.ok s' → s'.meta_has_arcs = some true) ∧
    (∀ (s : CoverageData) (d : List (String × List (Int × Int))), s.has_lines = true →
      add_arcs s d = Except.error "Can't add branch measurements to existing line data") ∧
    (∀ (s : CoverageData) (d : List (String × Finset Nat)), s.has_arcs = true →
      add_lines s d = Except.error "Can't add line measurements to existing branch data") := by
  refine ⟨?_, ?_, ?_, ?_, ?_, ?_, ?_, ?_, ?_, ?_, ?_, ?_, ?_⟩
  · intro s s' d h
    exact add_lines_ok_flags h
  · intro s s' d h
    exact add_arcs_ok_flags h
  · intro s s' fts h hm
    obtain ⟨c1, c2, _⟩ := add_file_tracers_ok_components h
    intro hc
    rw [c1, c2] at hc
    exact hm hc
  · intro s s' fn p h hm
    obtain ⟨c1, c2, _⟩ := touch_files_ok_components h
    intro hc
    rw [c1, c2] at hc
    exact hm hc
  · intro s s' fn h hm
    obtain ⟨c1, c2, _⟩ := purge_files_ok_components h
    intro hc
    rw [c1, c2] at hc
    exact hm hc
  · intro s c hm
    exact hm
  · intro s c hm
    exact hm
  · intro s cs hm
    unfold set_query_contexts
    cases cs with
    | none => exact hm
    | some pats =>
      by_cases hp : pats.isEmpty = true
      · simp only [hp]
        exact hm
      · rw [Bool.not_eq_true] at hp
        simp only [hp]
        exact hm
  · intro a b mp s' h hm
    exact update_ok_mode h hm
  · intro s s' d hl ha hm h
    obtain ⟨s1, hc, hcase⟩ := add_lines_ok_dest h
    rw [choose_commit hl ha true false] at hc
    cases hc
    rcases hcase with ⟨_, rfl⟩ | ⟨_, rfl⟩
    · simp [hm]
    · refine foldl_induction _ (fun t : CoverageData => t.meta_has_arcs = some false) _ _ ?_ ?_
      · simp [hm]
      · intro t fl _ ht
        simpa using ht
  · intro s s' d hl ha hm h
    obtain ⟨s1, hc, hcase⟩ := add_arcs_ok_dest h
    rw [choose_commit hl ha false true] at hc
    cases hc
    rcases hcase with ⟨_, rfl⟩ | ⟨_, rfl⟩
    · simp [hm]
    · refine foldl_induction _ (fun t : CoverageData => t.meta_has_arcs = some true) _ _ ?_ ?_
      · simp [hm]
      · intro t fa _ ht
        simpa using ht
  · intro s d hl
    exact add_arcs_on_lines_error hl d
  · intro s d ha
    exact add_lines_on_arcs_error ha d

/-- Witness for C3 at the sample stores: a successful `add_lines` leaves a
line-mode, not arc-mode store. -/
theorem mode_tristate_witness :
    emptyLineMode.has_lines = true ∧ emptyLineMode.has_arcs = false :=
  mode_tristate.1 empty0 emptyLineMode [] (by rfl)

end CoverageData

/-! ### Claim C7 -/

namespace CoverageData

/-- C7: for a file already associated with a different non-empty tracer
name, `add_file_tracers` raises the tracer-conflict error carrying both
names (the error carries no new state, so no association is written);
re-associating the file with the name it already has returns the store
unchanged. -/
theorem file_tracer_conflict (s : CoverageData) (f t p : String)
    (hex : file_tracer s f = some t) (hne : t ≠ "") :
    (p ≠ t → add_file_tracers s [(f, p)] = Except.error (tracer_conflict_msg f t p)) ∧
    add_file_tracers s [(f, t)] = Except.ok s := by
  have hfid : ∃ fid, alookup s.file f = some fid := by
    unfold file_tracer at hex
    cases halo : alookup s.file f with
    | none =>
      rw [halo] at hex
      cases hex
    | some fid => exact ⟨fid, rfl⟩
  obtain ⟨fid, hfid⟩ := hfid
  have hfia : file_id_add s f = (s, fid) := by
    unfold file_id_add
    rw [hfid]
  constructor
  · intro hpt
    have hstep : add_file_tracers_step s (f, p) = Except.error (tracer_conflict_msg f t p) := by
      unfold add_file_tracers_step
      simp only [hfia, hex]
      rw [if_pos hne, if_pos (fun hh => hpt hh.symm)]
    unfold add_file_tracers
    rw [if_neg (by simp), List.foldlM_cons, hstep]
    rfl
  · have hstep : add_file_tracers_step s (f, t) = Except.ok s := by
      unfold add_file_tracers_step
      simp only [hfia, hex]
      rw [if_pos hne, if_neg (by simp)]
    unfold add_file_tracers
    rw [if_neg (by simp), List.foldlM_cons, hstep]
    rfl

/-- Witness for C7 at the sample line store, whose file `a.py` is already
associated with tracer `plug`. -/
theorem file_tracer_conflict_witness :
    add_file_tracers lineStore [("a.py", "other")] =
      Except.error (tracer_conflict_msg "a.py" "plug" "other") ∧
    add_file_tracers lineStore [("a.py", "plug")] = Except.ok lineStore :=
  ⟨(file_tracer_conflict lineStore "a.py" "plug" "other" (by rfl) (by decide)).1 (by decide),
   (file_tracer_conflict lineStore "a.py" "plug" "other" (by rfl) (by decide)).2⟩

end CoverageData

/-! ### Claim C8 -/

namespace CoverageData

theorem purge_lines_run_char :
    ∀ (fnames : List String) (s : CoverageData),
      (purge_lines_run s fnames).file = s.file ∧
      (purge_lines_run s fnames).context = s.context ∧
      (purge_lines_run s fnames).tracer = s.tracer ∧
      (purge_lines_run s fnames).arc = s.arc ∧
      (purge_lines_run s fnames).has_lines = s.has_lines ∧
      (purge_lines_run s fnames).has_arcs = s.has_arcs ∧
      (purge_lines_run s fnames).meta_has_arcs = s.meta_has_arcs ∧
      (∀ r, r ∈ (purge_lines_run s fnames).line_bits ↔ (r ∈ s.line_bits ∧
        ∀ f ∈ fnames, ∀ fid, alookup s.file f = some fid → r.1.1 ≠ fid))
  | [], s => by
    refine ⟨rfl, rfl, rfl, rfl, rfl, rfl, rfl, ?_⟩
    intro r
    simp [purge_lines_run]
  | f :: fs, s => by
    cases halo : alookup s.file f with
    | none =>
      have hrec : purge_lines_run s (f :: fs) = purge_lines_run s fs := by
        unfold purge_lines_run
        rw [List.foldl_cons, halo]
      rw [hrec]
      obtain ⟨c1, c2, c3, c4, c5, c6, c7, hmem⟩ := purge_lines_run_char fs s
      refine ⟨c1, c2, c3, c4, c5, c6, c7, ?_⟩
      intro r
      rw [hmem r]
      constructor
      · rintro ⟨hr, hall⟩
        refine ⟨hr, fun f2 hf2 fid hfid => ?_⟩
        rcases List.mem_cons.mp hf2 with rfl | hf2
        · rw [halo] at hfid
          cases hfid
        · exact hall f2 hf2 fid hfid
      · rintro ⟨hr, hall⟩
        exact ⟨hr, fun f2 hf2 fid hfid => hall f2 (List.mem_cons_of_mem _ hf2) fid hfid⟩
    | some fid =>
      have hrec : purge_lines_run s (f :: fs) =
          purge_lines_run (setLineBits s (s.line_bits.filter (fun r => r.1.1 ≠ fid))) fs := by
        unfold purge_lines_run
        rw [List.foldl_cons, halo]
      rw [hrec]
      obtain ⟨c1, c2, c3, c4, c5, c6, c7, hmem⟩ := purge_lines_run_char fs
        (setLineBits s (s.line_bits.filter (fun r => r.1.1 ≠ fid)))
      refine ⟨by rw [c1]; rfl, by rw [c2]; rfl, by rw [c3]; rfl, by rw [c4]; rfl,
        by rw [c5]; rfl, by rw [c6]; rfl, by rw [c7]; rfl, ?_⟩
      intro r
      rw [hmem r]
      simp only [setLineBits_line_bits, setLineBits_file, List.mem_filter,
        decide_eq_true_eq]
      constructor
      · rintro ⟨⟨hr, hne⟩, hall⟩
        refine ⟨hr, fun f2 hf2 fid2 hfid2 => ?_⟩
        rcases List.mem_cons.mp hf2 with rfl | hf2
        · rw [halo] at hfid2
          injection hfid2 with hh
          subst hh
          exact hne
        · exact hall f2 hf2 fid2 hfid2
      · rintro ⟨hr, hall⟩
        exact ⟨⟨hr, hall f (List.mem_cons_self f fs) fid halo⟩,
          fun f2 hf2 fid2 hfid2 => hall f2 (List.mem_cons_of_mem _ hf2) fid2 hfid2⟩

theorem purge_arcs_run_char :
    ∀ (fnames : List String) (s : CoverageData),
      (purge_arcs_run s fnames).file = s.file ∧
      (purge_arcs_run s fnames).context = s.context ∧
      (purge_arcs_run s fnames).tracer = s.tracer ∧
      (purge_arcs_run s fnames).line_bits = s.line_bits ∧
      (purge_arcs_run s fnames).has_lines = s.has_lines ∧
      (purge_arcs_run s fnames).has_arcs = s.has_arcs ∧
      (purge_arcs_run s fnames).meta_has_arcs = s.meta_has_arcs ∧
      (∀ r, r ∈ (purge_arcs_run s fnames).arc ↔ (r ∈ s.arc ∧
        ∀ f ∈ fnames, ∀ fid, alookup s.file f = some fid → r.1 ≠ fid))
  | [], s => by
    refine ⟨rfl, rfl, rfl, rfl, rfl, rfl, rfl, ?_⟩
    intro r
    simp [purge_arcs_run]
  | f :: fs, s => by
    cases halo : alookup s.file f with
    | none =>
      have hrec : purge_arcs_run s (f :: fs) = purge_arcs_run s fs := by
        unfold purge_arcs_run
        rw [List.foldl_cons, halo]
      rw [hrec]
      obtain ⟨c1, c2, c3, c4, c5, c6, c7, hmem⟩ := purge_arcs_run_char fs s
      refine ⟨c1, c2, c3, c4, c5, c6, c7, ?_⟩
      intro r
      rw [hmem r]
      constructor
      · rintro ⟨hr, hall⟩
        refine ⟨hr, fun f2 hf2 fid hfid => ?_⟩
        rcases List.mem_cons.mp hf2 with rfl | hf2
        · rw [halo] at hfid
          cases hfid
        · exact hall f2 hf2 fid hfid
      · rintro ⟨hr, hall⟩
        exact ⟨hr, fun f2 hf2 fid hfid => hall f2 (List.mem_cons_of_mem _ hf2) fid hfid⟩
    | some fid =>
      have hrec : purge_arcs_run s (f :: fs) =
          purge_arcs_run (setArc s (s.arc.filter (fun r => r.1 ≠ fid))) fs := by
        unfold purge_arcs_run
        rw [List.foldl_cons, halo]
      rw [hrec]
      obtain ⟨c1, c2, c3, c4, c5, c6, c7, hmem⟩ := purge_arcs_run_char fs
        (setArc s (s.arc.filter (fun r => r.1 ≠ fid)))
      refine ⟨by rw [c1]; rfl, by rw [c2]; rfl, by rw [c3]; rfl, by rw [c4]; rfl,
        by rw [c5]; rfl, by rw [c6]; rfl, by rw [c7]; rfl, ?_⟩
      intro r
      rw [hmem r]
      simp only [setArc_arc, setArc_file, List.mem_filter, decide_eq_true_eq]
      constructor
      · rintro ⟨⟨hr, hne⟩, hall⟩
        refine ⟨hr, fun f2 hf2 fid2 hfid2 => ?_⟩
        rcases List.mem_cons.mp hf2 with rfl | hf2
        · rw [halo] at hfid2
          injection hfid2 with hh
          subst hh
          exact hne
        · exact hall f2 hf2 fid2 hfid2
      · rintro ⟨hr, hall⟩
        exact ⟨⟨hr, hall f (List.mem_cons_self f fs) fid halo⟩,
          fun f2 hf2 fid2 hfid2 => hall f2 (List.mem_cons_of_mem _ hf2) fid2 hfid2⟩

/-- C8: `purge_files(names)` deletes only the `line_bits` rows (line mode)
or the `arc` rows (arc mode) of the named files; the `file` rows, all
`context` rows, the tracer table, the other table, the mode flags and the
metadata — and every row of any file not named — are unchanged; and it
raises when no mode has been established. -/
theorem purge_files_frame (s : CoverageData) (fnames : List String) :
    (s.has_lines = true → ∃ s', purge_files s fnames = Except.ok s' ∧
      s'.file = s.file ∧ s'.context = s.context ∧ s'.tracer = s.tracer ∧
      s'.arc = s.arc ∧ s'.has_lines = s.has_lines ∧ s'.has_arcs = s.has_arcs ∧
      s'.meta_has_arcs = s.meta_has_arcs ∧
      (∀ r, r ∈ s'.line_bits ↔ (r ∈ s.line_bits ∧
        ∀ f ∈ fnames, ∀ fid, alookup s.file f = some fid → r.1.1 ≠ fid))) ∧
    (s.has_lines = false → s.has_arcs = true → ∃ s', purge_files s fnames = Except.ok s' ∧
      s'.file = s.file ∧ s'.context = s.context ∧ s'.tracer = s.tracer ∧
      s'.line_bits = s.line_bits ∧ s'.has_lines = s.has_lines ∧ s'.has_arcs = s.has_arcs ∧
      s'.meta_has_arcs = s.meta_has_arcs ∧
      (∀ r, r ∈ s'.arc ↔ (r ∈ s.arc ∧
        ∀ f ∈ fnames, ∀ fid, alookup s.file f = some fid → r.1 ≠ fid))) ∧
    (s.has_lines = false → s.has_arcs = false →
      purge_files s fnames = Except.error "Can't purge files in an empty CoverageData") := by
  refine ⟨?_, ?_, ?_⟩
  · intro hl
    refine ⟨purge_lines_run s fnames, ?_, ?_⟩
    · unfold purge_files
      rw [if_pos hl]
    · exact purge_lines_run_char fnames s
  · intro hl ha
    refine ⟨purge_arcs_run s fnames, ?_, ?_⟩
    · unfold purge_files
      rw [if_neg (by simp [hl]), if_pos ha]
    · exact purge_arcs_run_char fnames s
  · intro hl ha
    unfold purge_files
    rw [if_neg (by simp [hl]), if_neg (by simp [ha])]

/-- Witness for C8 at the sample line store: purging `a.py` removes its
line rows and keeps everything else. -/
theorem purge_files_frame_witness :
    ∃ s', purge_files lineStore ["a.py"] = Except.ok s' ∧
      s'.file = lineStore.file ∧ s'.context = lineStore.context ∧
      s'.tracer = lineStore.tracer ∧ s'.arc = lineStore.arc ∧
      s'.has_lines = lineStore.has_lines ∧ s'.has_arcs = lineStore.has_arcs ∧
      s'.meta_has_arcs = lineStore.meta_has_arcs ∧
      (∀ r, r ∈ s'.line_bits ↔ (r ∈ lineStore.line_bits ∧
        ∀ f ∈ ["a.py"], ∀ fid, alookup lineStore.file f = some fid → r.1.1 ≠ fid)) :=
  (purge_files_frame lineStore ["a.py"]).1 rfl

end CoverageData

/-! ### Claim C9 -/

namespace CoverageData

/-- C9: `loads(data)` raises a serialization error whenever the first byte
of the input is not the expected format marker `b"z"` (byte 122) — in
particular for empty input — and the error message carries a preview of the
offending bytes (the first 40) and the total byte length.  The marker check
is the first thing `loads` does, before the connection or the store is
touched, so nothing is modified: the embedding returns only the error
value. -/
theorem loads_rejects_bad_marker (data : List Nat) (h : data.take 1 ≠ [122]) :
    ∃ msg, loads data = Except.error msg ∧
      (∃ pre post, msg = pre ++ toString (data.take 40) ++ post) ∧
      (∃ pre post, msg = pre ++ toString data.length ++ post) := by
  refine ⟨"Unrecognized serialization: " ++ toString (data.take 40) ++
      " (head of " ++ toString data.length ++ " bytes)", ?_, ?_, ?_⟩
  · unfold loads
    rw [if_neg h]
  · exact ⟨"Unrecognized serialization: ",
      " (head of " ++ toString data.length ++ " bytes)", by
        simp [String.append_assoc]⟩
  · exact ⟨"Unrecognized serialization: " ++ toString (data.take 40) ++ " (head of ",
      " bytes)", by simp [String.append_assoc]⟩

/-- Witness for C9 at the empty input. -/
theorem loads_rejects_bad_marker_witness :
    ∃ msg, loads [] = Except.error msg ∧
      (∃ pre post, msg = pre ++ toString (List.take 40 ([] : List Nat)) ++ post) ∧
      (∃ pre post, msg = pre ++ toString (List.length ([] : List Nat)) ++ post) :=
  loads_rejects_bad_marker [] (by decide)

end CoverageData

/-! ### Claim C5 -/

namespace CoverageData

theorem arcs_of_lookup_none {s : CoverageData} {f : String}
    (h : alookup s.file f = none) : arcs s f = none := by
  unfold arcs
  rw [h]

theorem file_id_add_lookup_self (s : CoverageData) (f : String) :
    alookup (file_id_add s f).1.file f = some (file_id_add s f).2 := by
  unfold file_id_add
  cases halo : alookup s.file f with
  | some fid => simpa using halo
  | none =>
    simp only []
    rw [alookup_append, halo]
    simp [alookup]

/-- C5: `lines` and `arcs` return the not-measured signal `none` for a file
never referenced in the store, and an empty collection for a file that is
referenced but has no rows passing the active query-context filter; a file
passed to `touch_files` becomes referenced. -/
theorem lines_arcs_none_vs_empty (s : CoverageData) (f : String) :
    (alookup s.file f = none → lines s f = none ∧ arcs s f = none) ∧
    (∀ fid, alookup s.file f = some fid →
      (s.has_arcs = false →
        s.line_bits.filter (fun r => r.1.1 = fid ∧ context_ok s r.1.2 = true) = [] →
        lines s f = some ∅) ∧
      (s.arc.filter (fun r => r.1 = fid ∧ context_ok s r.2.1 = true) = [] →
        arcs s f = some ∅ ∧ (s.has_arcs = true → lines s f = some ∅))) ∧
    (∀ s', touch_files s [f] none = Except.ok s' → (alookup s'.file f).isSome) := by
  refine ⟨?_, ?_, ?_⟩
  · intro halo
    have harcs : arcs s f = none := arcs_of_lookup_none halo
    refine ⟨?_, harcs⟩
    unfold lines
    rw [harcs, if_neg (by simp)]
    rw [halo]
  · intro fid hfid
    constructor
    · intro hA hfilter
      unfold lines
      rw [if_neg (by simp [hA]), hfid]
      show some (List.foldl (fun acc r => acc ∪ numbits_to_nums r.2) ∅
        (s.line_bits.filter (fun r => r.1.1 = fid ∧ context_ok s r.1.2 = true))) = some ∅
      rw [hfilter]
      rfl
    · intro hfilter
      have harcs : arcs s f = some ∅ := by
        unfold arcs
        rw [hfid]
        show some ((s.arc.filter (fun r => r.1 = fid ∧ context_ok s r.2.1 = true)).map
          (fun r => (r.2.2.1, r.2.2.2))).toFinset = some ∅
        rw [hfilter]
        rfl
      refine ⟨harcs, ?_⟩
      intro hA
      unfold lines
      rw [harcs, if_pos (by simp [hA, harcs])]
      simp [pos_lines]
  · intro s' h
    unfold touch_files at h
    split at h
    · cases h
    · rw [List.foldlM_cons] at h
      have hstep : touch_files_step none s f = Except.ok (file_id_add s f).1 := rfl
      rw [hstep] at h
      have h2 : Except.ok (file_id_add s f).1 = Except.ok s' := h
      cases h2
      rw [file_id_add_lookup_self]
      rfl

/-- Witness for C5 at the sample line store: `c.py` was never referenced,
`b.py` is referenced with no recorded rows. -/
theorem lines_arcs_none_vs_empty_witness :
    lines lineStore "c.py" = none ∧ lines lineStore "b.py" = some ∅ :=
  ⟨((lines_arcs_none_vs_empty lineStore "c.py").1 (by decide)).1,
   ((lines_arcs_none_vs_empty lineStore "b.py").2.1 2 (by decide)).1 (by decide) (by decide)⟩

end CoverageData

/-! ### Claim C6 -/

namespace CoverageData

theorem context_ok_set_query_context (s : CoverageData) (name : String) (cid : Nat) :
    context_ok (set_query_context s name) cid = true ↔ (name, cid) ∈ s.context := by
  unfold context_ok set_query_context
  simp only [decide_eq_true_eq, List.mem_map, List.mem_filter, decide_eq_true_eq]
  constructor
  · rintro ⟨⟨n, c⟩, ⟨hpr, hname⟩, hsnd⟩
    obtain rfl : n = name := hname
    obtain rfl : c = cid := hsnd
    exact hpr
  · intro h
    exact ⟨(name, cid), ⟨h, rfl⟩, rfl⟩

theorem context_ok_set_query_contexts (s : CoverageData) (pats : List String)
    (hne : pats.isEmpty = false) (cid : Nat) :
    context_ok (set_query_contexts s (some pats)) cid = true ↔
      ∃ pr ∈ s.context, pr.2 = cid ∧ ∃ p ∈ pats, regexp_search p pr.1 = true := by
  cases pats with
  | nil => simp at hne
  | cons p0 pr0 =>
    show decide (cid ∈ (s.context.filter
        (fun pc => (p0 :: pr0).any (fun p => regexp_search p pc.1))).map Prod.snd) = true ↔ _
    simp only [decide_eq_true_eq, List.mem_map, List.mem_filter, List.any_eq_true]
    constructor
    · rintro ⟨pr, ⟨hpr, hany⟩, hsnd⟩
      exact ⟨pr, hpr, hsnd, hany⟩
    · rintro ⟨pr, hpr, hsnd, hany⟩
      exact ⟨pr, ⟨hpr, hany⟩, hsnd⟩

theorem lines_line_mode (s : CoverageData) {f : String} {fid : Nat}
    (hA : s.has_arcs = false) (hfid : alookup s.file f = some fid) :
    lines s f =
      some ((s.line_bits.filter (fun r => r.1.1 = fid ∧ context_ok s r.1.2 = true)).foldl
        (fun acc r => acc ∪ numbits_to_nums r.2) ∅) := by
  unfold lines
  rw [if_neg (by simp [hA]), hfid]

theorem arcs_some (s : CoverageData) {f : String} {fid : Nat}
    (hfid : alookup s.file f = some fid) :
    arcs s f =
      some (((s.arc.filter (fun r => r.1 = fid ∧ context_ok s r.2.1 = true)).map
        (fun r => (r.2.2.1, r.2.2.2))).toFinset) := by
  unfold arcs
  rw [hfid]

theorem contexts_by_lineno_line_mode (s : CoverageData) {f : String} {fid : Nat}
    (hA : s.has_arcs = false) (hfid : alookup s.file f = some fid) :
    contexts_by_lineno s f =
      (s.line_bits.filter (fun r => r.1.1 = fid ∧ context_ok s r.1.2 = true)).foldl (fun acc r =>
        acc ∪ ((s.context.filter (fun pc => pc.2 = r.1.2)).foldl (fun acc2 pc =>
          (r.2.image (fun ln => (ln, pc.1))) ∪ acc2) ∅)) ∅ := by
  unfold contexts_by_lineno
  rw [hfid, hA]
  rfl

/-- C6: `set_query_context(name)` restricts `lines`, `arcs` and
`contexts_by_lineno` to rows whose context exactly equals `name`;
`set_query_contexts(patterns)` restricts them to rows whose context matches
any of the patterns under search (substring, not full-string) semantics; a
`None` or empty pattern list clears the filter, and with no filter the full
per-file result is returned. -/
theorem query_context_filtering (s : CoverageData) (f : String) (fid : Nat)
    (hA : s.has_arcs = false) (hfid : alookup s.file f = some fid) :
    (∀ name, lines (set_query_context s name) f =
      some ((s.line_bits.filter (fun r => r.1.1 = fid ∧ (name, r.1.2) ∈ s.context)).foldl
        (fun acc r => acc ∪ numbits_to_nums r.2) ∅)) ∧
    (∀ name, arcs (set_query_context s name) f =
      some (((s.arc.filter (fun r => r.1 = fid ∧ (name, r.2.1) ∈ s.context)).map
        (fun r => (r.2.2.1, r.2.2.2))).toFinset)) ∧
    (∀ name, contexts_by_lineno (set_query_context s name) f =
      (s.line_bits.filter (fun r => r.1.1 = fid ∧ (name, r.1.2) ∈ s.context)).foldl (fun acc r =>
        acc ∪ ((s.context.filter (fun pc => pc.2 = r.1.2)).foldl (fun acc2 pc =>
          (r.2.image (fun ln => (ln, pc.1))) ∪ acc2) ∅)) ∅) ∧
    (∀ pats, pats.isEmpty = false → lines (set_query_contexts s (some pats)) f =
      some ((s.line_bits.filter (fun r => r.1.1 = fid ∧
          ∃ pr ∈ s.context, pr.2 = r.1.2 ∧ ∃ p ∈ pats, regexp_search p pr.1 = true)).foldl
        (fun acc r => acc ∪ numbits_to_nums r.2) ∅)) ∧
    (set_query_contexts s none = { s with query_context_ids := none } ∧
      set_query_contexts s (some []) = { s with query_context_ids := none }) ∧
    (s.query_context_ids = none → lines s f =
      some ((s.line_bits.filter (fun r => r.1.1 = fid)).foldl
        (fun acc r => acc ∪ numbits_to_nums r.2) ∅)) := by
  refine ⟨?_, ?_, ?_, ?_, ⟨rfl, rfl⟩, ?_⟩
  · intro name
    have hfe : s.line_bits.filter
        (fun r => r.1.1 = fid ∧ context_ok (set_query_context s name) r.1.2 = true) =
        s.line_bits.filter (fun r => r.1.1 = fid ∧ (name, r.1.2) ∈ s.context) := by
      apply List.filter_congr
      intro r _
      simp only [decide_eq_decide]
      exact and_congr_right (fun _ => context_ok_set_query_context s name r.1.2)
    rw [lines_line_mode (set_query_context s name) hA hfid]
    show some ((List.filter
        (fun r => r.1.1 = fid ∧ context_ok (set_query_context s name) r.1.2 = true)
        s.line_bits).foldl (fun acc r => acc ∪ numbits_to_nums r.2) ∅) = _
    rw [hfe]
  · intro name
    have hfe : s.arc.filter
        (fun r => r.1 = fid ∧ context_ok (set_query_context s name) r.2.1 = true) =
        s.arc.filter (fun r => r.1 = fid ∧ (name, r.2.1) ∈ s.context) := by
      apply List.filter_congr
      intro r _
      simp only [decide_eq_decide]
      exact and_congr_right (fun _ => context_ok_set_query_context s name r.2.1)
    rw [arcs_some (set_query_context s name) hfid]
    show some (((List.filter
        (fun r => r.1 = fid ∧ context_ok (set_query_context s name) r.2.1 = true)
        s.arc).map (fun r => (r.2.2.1, r.2.2.2))).toFinset) = _
    rw [hfe]
  · intro name
    have hfe : s.line_bits.filter
        (fun r => r.1.1 = fid ∧ context_ok (set_query_context s name) r.1.2 = true) =
        s.line_bits.filter (fun r => r.1.1 = fid ∧ (name, r.1.2) ∈ s.context) := by
      apply List.filter_congr
      intro r _
      simp only [decide_eq_decide]
      exact and_congr_right (fun _ => context_ok_set_query_context s name r.1.2)
    rw [contexts_by_lineno_line_mode (set_query_context s name) hA hfid]
    show (List.filter
        (fun r => r.1.1 = fid ∧ context_ok (set_query_context s name) r.1.2 = true)
        s.line_bits).foldl (fun acc r =>
          acc ∪ ((s.context.filter (fun pc => pc.2 = r.1.2)).foldl (fun acc2 pc =>
            (r.2.image (fun ln => (ln, pc.1))) ∪ acc2) ∅)) ∅ = _
    rw [hfe]
  · intro pats hne
    cases pats with
    | nil => simp at hne
    | cons p0 pr0 =>
      have hA2 : (set_query_contexts s (some (p0 :: pr0))).has_arcs = false := hA
      have hfid2 : alookup (set_query_contexts s (some (p0 :: pr0))).file f = some fid := hfid
      rw [lines_line_mode (set_query_contexts s (some (p0 :: pr0))) hA2 hfid2]
      have hfe : s.line_bits.filter
          (fun r => r.1.1 = fid ∧
            context_ok (set_query_contexts s (some (p0 :: pr0))) r.1.2 = true) =
          s.line_bits.filter (fun r => r.1.1 = fid ∧
            ∃ pr ∈ s.context, pr.2 = r.1.2 ∧ ∃ p ∈ p0 :: pr0, regexp_search p pr.1 = true) := by
        apply List.filter_congr
        intro r _
        simp only [decide_eq_decide]
        exact and_congr_right
          (fun _ => context_ok_set_query_contexts s (p0 :: pr0) rfl r.1.2)
      show some ((List.filter
          (fun r => r.1.1 = fid ∧
            context_ok (set_query_contexts s (some (p0 :: pr0))) r.1.2 = true)
          s.line_bits).foldl (fun acc r => acc ∪ numbits_to_nums r.2) ∅) = _
      rw [hfe]
  · intro hq
    have hfe : s.line_bits.filter (fun r => r.1.1 = fid ∧ context_ok s r.1.2 = true) =
        s.line_bits.filter (fun r => r.1.1 = fid) := by
      apply List.filter_congr
      intro r _
      simp only [decide_eq_decide]
      constructor
      · rintro ⟨h1, _⟩
        exact h1
      · intro h1
        refine ⟨h1, ?_⟩
        unfold context_ok
        rw [hq]
    rw [lines_line_mode s hA hfid, hfe]

/-- Witness for C6 at the sample line store: filtering to the context
`sys` restricts `lines a.py` to the rows recorded under `sys`. -/
theorem query_context_filtering_witness :
    lines (set_query_context lineStore "sys") "a.py" =
      some ((lineStore.line_bits.filter
          (fun r => r.1.1 = 1 ∧ ("sys", r.1.2) ∈ lineStore.context)).foldl
        (fun acc r => acc ∪ numbits_to_nums r.2) ∅) :=
  (query_context_filtering lineStore "a.py" 1 (by decide) (by decide)).1 "sys"

end CoverageData

/-! ### Well-formedness preservation -/

namespace CoverageData

theorem context_ok_none {s : CoverageData} (hq : s.query_context_ids = none) (cid : Nat) :
    context_ok s cid = true := by
  unfold context_ok
  rw [hq]

theorem lines_of_lookup_none {s : CoverageData} {f : String}
    (h : alookup s.file f = none) : lines s f = none := by
  unfold lines
  rw [arcs_of_lookup_none h, if_neg (by simp), h]

theorem file_id_add_fst (s : CoverageData) (f : String) :
    (file_id_add s f).1 = insertFileIgnore s f := by
  unfold file_id_add insertFileIgnore
  cases halo : alookup s.file f with
  | some fid => simp [halo]
  | none => simp [halo]

theorem set_context_id_fst (s : CoverageData) :
    (set_context_id s).1 = insertContextIgnore s (s.current_context.getD "") := by
  unfold set_context_id insertContextIgnore
  cases halo : alookup s.context (s.current_context.getD "") with
  | some cid => simp [halo]
  | none => simp [halo]

theorem alookup_none_of_forall_lt {β : Type} {l : List ((Nat × β) × Finset Nat)} {n : Nat}
    {c : β} [DecidableEq β] (h : ∀ r ∈ l, r.1.1 < n) : alookup l (n, c) = none := by
  rw [alookup_eq_none_iff]
  intro hmem
  obtain ⟨r, hr, hkey⟩ := List.mem_map.mp hmem
  have := h r hr
  rw [hkey] at this
  exact lt_irrefl n this

theorem WF_insertFileIgnore {s : CoverageData} (hwf : WF s) (p : String) :
    WF (insertFileIgnore s p) := by
  obtain ⟨w1, w2, w3, w4, w5, w6, w7, w8, w9⟩ := hwf
  unfold insertFileIgnore
  split
  · exact ⟨w1, w2, w3, w4, w5, w6, w7, w8, w9⟩
  · refine ⟨?_, ?_, w3, w4, ?_, w6, w7, w8, w9⟩
    · simp only [List.map_append, List.map_cons, List.map_nil]
      rw [List.nodup_append]
      refine ⟨w1, List.nodup_singleton _, ?_⟩
      intro x hx hx2
      simp only [List.mem_singleton] at hx2
      subst hx2
      obtain ⟨pr, hpr, hsnd⟩ := List.mem_map.mp hx
      have := w2 pr hpr
      rw [hsnd] at this
      exact lt_irrefl _ this
    · intro pr hpr
      rcases List.mem_append.mp hpr with hold | hnew
      · exact Nat.lt_trans (w2 pr hold) (Nat.lt_succ_self _)
      · simp only [List.mem_singleton] at hnew
        subst hnew
        exact Nat.lt_succ_self _
    · intro r hr
      exact ⟨Nat.lt_trans (w5 r hr).1 (Nat.lt_succ_self _), (w5 r hr).2⟩

theorem WF_insertContextIgnore {s : CoverageData} (hwf : WF s) (c : String) :
    WF (insertContextIgnore s c) := by
  obtain ⟨w1, w2, w3, w4, w5, w6, w7, w8, w9⟩ := hwf
  unfold insertContextIgnore
  split
  · exact ⟨w1, w2, w3, w4, w5, w6, w7, w8, w9⟩
  · refine ⟨w1, w2, ?_, ?_, ?_, w6, w7, w8, w9⟩
    · simp only [List.map_append, List.map_cons, List.map_nil]
      rw [List.nodup_append]
      refine ⟨w3, List.nodup_singleton _, ?_⟩
      intro x hx hx2
      simp only [List.mem_singleton] at hx2
      subst hx2
      obtain ⟨pr, hpr, hsnd⟩ := List.mem_map.mp hx
      have := w4 pr hpr
      rw [hsnd] at this
      exact lt_irrefl _ this
    · intro pr hpr
      rcases List.mem_append.mp hpr with hold | hnew
      · exact Nat.lt_trans (w4 pr hold) (Nat.lt_succ_self _)
      · simp only [List.mem_singleton] at hnew
        subst hnew
        exact Nat.lt_succ_self _
    · intro r hr
      exact ⟨(w5 r hr).1, Nat.lt_trans (w5 r hr).2 (Nat.lt_succ_self _)⟩

theorem WF_choose_ok {s s' : CoverageData} {lb ab : Bool}
    (h : choose_lines_or_arcs s lb ab = Except.ok s')
    (hx : (lb = true ∧ ab = false) ∨ (lb = false ∧ ab = true))
    (hwf : WF s) : WF s' := by
  obtain ⟨w1, w2, w3, w4, w5, w6, w7, w8, w9⟩ := hwf
  unfold choose_lines_or_arcs at h
  split at h
  · cases h
  · split at h
    · cases h
    · split at h
      · next hc =>
        cases h
        refine ⟨w1, w2, w3, w4, w5, ?_, ?_, ?_, ?_⟩
        · rintro ⟨h1, h2⟩
          rcases hx with ⟨ha, hb⟩ | ⟨ha, hb⟩
          · rw [hb] at h2
            cases h2
          · rw [ha] at h1
            cases h1
        · intro _
          exact w7 hc.1
        · intro _
          exact w8 hc.2
        · rintro ⟨h1, h2⟩
          rcases hx with ⟨ha, hb⟩ | ⟨ha, hb⟩
          · rw [ha] at h1
            cases h1
          · rw [hb] at h2
            cases h2
      · cases h
        exact ⟨w1, w2, w3, w4, w5, w6, w7, w8, w9⟩

theorem mem_upsertA {α β : Type} [DecidableEq α] {k : α} {v : β} :
    ∀ {l : List (α × β)} {r : α × β}, r ∈ upsertA k v l → r = (k, v) ∨ r ∈ l
  | [], r, h => Or.inl (by simpa [upsertA] using h)
  | (k1, v1) :: tl, r, h => by
    by_cases hk : k1 = k
    · simp only [upsertA, if_pos hk] at h
      rcases List.mem_cons.mp h with h2 | h2
      · exact Or.inl h2
      · exact Or.inr (List.mem_cons_of_mem _ h2)
    · simp only [upsertA, if_neg hk] at h
      rcases List.mem_cons.mp h with h2 | h2
      · exact Or.inr (h2 ▸ List.mem_cons_self _ _)
      · rcases mem_upsertA h2 with h3 | h3
        · exact Or.inl h3
        · exact Or.inr (List.mem_cons_of_mem _ h3)

theorem file_id_add_snd_lt {s : CoverageData} (hwf : WF s) (f : String) :
    (file_id_add s f).2 < (file_id_add s f).1.next_file_id := by
  obtain ⟨_, w2, _⟩ := hwf
  unfold file_id_add
  cases halo : alookup s.file f with
  | some fid =>
    simpa using w2 (f, fid) (mem_of_alookup_eq_some halo)
  | none => simp

theorem set_context_id_snd_lt {s : CoverageData} (hwf : WF s) :
    (set_context_id s).2 < (set_context_id s).1.next_context_id := by
  obtain ⟨_, _, _, w4, _⟩ := hwf
  unfold set_context_id
  cases halo : alookup s.context (s.current_context.getD "") with
  | some cid =>
    simpa using w4 (_, cid) (mem_of_alookup_eq_some halo)
  | none => simp

theorem WF_add_lines_write {st : CoverageData} (hwf : WF st) (hl : st.has_lines = true)
    {cid : Nat} (hcid : cid < st.next_context_id) (fl : String × Finset Nat) :
    WF (add_lines_write cid st fl) := by
  have hwf1 : WF (file_id_add st fl.1).1 := by
    rw [file_id_add_fst]
    exact WF_insertFileIgnore hwf fl.1
  have hfid : (file_id_add st fl.1).2 < (file_id_add st fl.1).1.next_file_id :=
    file_id_add_snd_lt hwf fl.1
  have hcid2 : cid < (file_id_add st fl.1).1.next_context_id := by
    rw [file_id_add_next_context_id]
    exact hcid
  obtain ⟨w1, w2, w3, w4, w5, w6, w7, w8, w9⟩ := hwf1
  refine ⟨?_, ?_, ?_, ?_, ?_, ?_, ?_, ?_, ?_⟩ <;>
    simp only [add_lines_write, setLineBits_file, setLineBits_next_file_id,
      setLineBits_context, setLineBits_next_context_id, setLineBits_line_bits,
      setLineBits_arc, setLineBits_has_lines, setLineBits_has_arcs, setLineBits_meta]
  · exact w1
  · exact w2
  · exact w3
  · exact w4
  · intro r hr
    rcases mem_upsertA hr with rfl | hr2
    · exact ⟨hfid, hcid2⟩
    · exact w5 r hr2
  · simpa using w6
  · simpa using w7
  · intro hfalse
    rw [show (file_id_add st fl.1).1.has_lines = st.has_lines from by simp, hl] at hfalse
    cases hfalse
  · rintro ⟨hfalse, _⟩
    rw [show (file_id_add st fl.1).1.has_lines = st.has_lines from by simp, hl] at hfalse
    cases hfalse

end CoverageData

namespace CoverageData

theorem foldl_union_acc (Ls : List (Finset Nat)) (acc : Finset Nat) :
    Ls.foldl (fun a L => a ∪ L) acc = acc ∪ Ls.foldl (fun a L => a ∪ L) ∅ := by
  induction Ls generalizing acc with
  | nil => simp
  | cons L Ls ih =>
    rw [List.foldl_cons, ih (acc ∪ L), List.foldl_cons, ih (∅ ∪ L)]
    simp [Finset.union_assoc]

theorem add_lines_single_step (s : CoverageData) (f : String) (L : Finset Nat)
    (hwf : WF s) (hA : s.has_arcs = false) (hq : s.query_context_ids = none) :
    ∃ s1, add_lines s [(f, L)] = Except.ok s1 ∧ WF s1 ∧ s1.has_arcs = false ∧
      s1.query_context_ids = none ∧
      lines s1 f = some ((lines s f).getD ∅ ∪ L) := by
  obtain ⟨sc, hsc⟩ : ∃ sc, choose_lines_or_arcs s true false = Except.ok sc := by
    cases hL : s.has_lines with
    | true => exact ⟨s, choose_noop_lines hL hA⟩
    | false => exact ⟨_, choose_commit hL hA true false⟩
  obtain ⟨c1, c2, c3, c4, c5, c6, c7, c8, c9⟩ := choose_ok_components hsc
  obtain ⟨hLsc, hAsc⟩ := choose_lines_ok_flags hsc
  have hwfc : WF sc := WF_choose_ok hsc (Or.inl ⟨rfl, rfl⟩) hwf
  have hwf2 : WF (set_context_id sc).1 := by
    rw [set_context_id_fst]
    exact WF_insertContextIgnore hwfc _
  have hl2 : (set_context_id sc).1.has_lines = true := by
    rw [set_context_id_has_lines]
    exact hLsc
  have hcidlt : (set_context_id sc).2 < (set_context_id sc).1.next_context_id :=
    set_context_id_snd_lt hwfc
  have hfile2 : (set_context_id sc).1.file = s.file := by
    rw [set_context_id_file, c1]
  have hnfid2 : (set_context_id sc).1.next_file_id = s.next_file_id := by
    rw [set_context_id_next_file_id, c2]
  have hlb2 : (set_context_id sc).1.line_bits = s.line_bits := by
    rw [set_context_id_line_bits, c5]
  have hA2 : (set_context_id sc).1.has_arcs = false := by
    rw [set_context_id_has_arcs]
    exact hAsc
  have hq2 : (set_context_id sc).1.query_context_ids = none := by
    rw [set_context_id_query, c9, hq]
  refine ⟨add_lines_write (set_context_id sc).2 (set_context_id sc).1 (f, L),
    ?_, ?_, ?_, ?_, ?_⟩
  · unfold add_lines
    rw [hsc]
    rfl
  · exact WF_add_lines_write hwf2 hl2 hcidlt (f, L)
  · simp only [add_lines_write, setLineBits_has_arcs, file_id_add_has_arcs]
    exact hA2
  · simp only [add_lines_write, setLineBits_query, file_id_add_query]
    exact hq2
  · have hA1 : (add_lines_write (set_context_id sc).2 (set_context_id sc).1 (f, L)).has_arcs
        = false := by
      simp only [add_lines_write, setLineBits_has_arcs, file_id_add_has_arcs]
      exact hA2
    have hq1 : (add_lines_write (set_context_id sc).2 (set_context_id sc).1 (f, L)).query_context_ids
        = none := by
      simp only [add_lines_write, setLineBits_query, file_id_add_query]
      exact hq2
    have hfid1 : alookup
        (add_lines_write (set_context_id sc).2 (set_context_id sc).1 (f, L)).file f
        = some (file_id_add (set_context_id sc).1 f).2 := by
      simp only [add_lines_write, setLineBits_file]
      exact file_id_add_lookup_self (set_context_id sc).1 f
    rw [lines_line_mode _ hA1 hfid1]
    have hlb1 : (add_lines_write (set_context_id sc).2 (set_context_id sc).1 (f, L)).line_bits
        = upsertA ((file_id_add (set_context_id sc).1 f).2, (set_context_id sc).2)
            (add_lines_nb2 (file_id_add (set_context_id sc).1 f).1
              ((file_id_add (set_context_id sc).1 f).2, (set_context_id sc).2)
              (nums_to_numbits L))
            s.line_bits := by
      simp only [add_lines_write, setLineBits_line_bits, file_id_add_line_bits]
      rw [hlb2]
    rw [hlb1]
    have hctx1 : ∀ c, context_ok
        (add_lines_write (set_context_id sc).2 (set_context_id sc).1 (f, L)) c = true :=
      context_ok_none hq1
    have hctxs : ∀ c, context_ok s c = true := context_ok_none hq
    cases halo : alookup s.file f with
    | none =>
      rw [lines_of_lookup_none halo]
      have halo2 : alookup (set_context_id sc).1.file f = none := by
        rw [hfile2]
        exact halo
      have hfid_eq : (file_id_add (set_context_id sc).1 f).2 = s.next_file_id := by
        unfold file_id_add
        rw [halo2, hnfid2]
      have hnb : add_lines_nb2 (file_id_add (set_context_id sc).1 f).1
          ((file_id_add (set_context_id sc).1 f).2, (set_context_id sc).2)
          (nums_to_numbits L) = L := by
        unfold add_lines_nb2
        rw [file_id_add_line_bits, hlb2, hfid_eq]
        rw [alookup_none_of_forall_lt (fun r hr => (hwf.2.2.2.2.1 r hr).1)]
        rfl
      rw [hnb, hfid_eq]
      have hup : upsertA ((s.next_file_id, (set_context_id sc).2) : Nat × Nat) L s.line_bits
          = s.line_bits ++ [((s.next_file_id, (set_context_id sc).2), L)] :=
        upsertA_of_alookup_eq_none
          (alookup_none_of_forall_lt (fun r hr => (hwf.2.2.2.2.1 r hr).1)) L
      rw [hup]
      congr 1
      ext x
      rw [mem_foldl_union]
      simp only [Finset.not_mem_empty, false_or, List.mem_filter, List.mem_append,
        List.mem_singleton, decide_eq_true_eq]
      constructor
      · rintro ⟨r, ⟨hr, hrfid, _⟩, hx⟩
        rcases hr with hold | rfl
        · have hb := (hwf.2.2.2.2.1 r hold).1
          rw [hrfid] at hb
          exact absurd hb (lt_irrefl _)
        · simpa using hx
      · intro hx
        rw [Finset.mem_union] at hx
        rcases hx with hx | hx
        · simp at hx
        · exact ⟨((s.next_file_id, (set_context_id sc).2), L),
            ⟨Or.inr rfl, rfl, hctx1 _⟩, hx⟩
    | some fid0 =>
      have halo2 : alookup (set_context_id sc).1.file f = some fid0 := by
        rw [hfile2]
        exact halo
      have hpair : file_id_add (set_context_id sc).1 f = ((set_context_id sc).1, fid0) := by
        unfold file_id_add
        rw [halo2]
      rw [lines_line_mode s hA halo, hpair]
      have hU : ∀ x : Nat, x ∈ ((s.line_bits.filter
          (fun r => r.1.1 = fid0 ∧ context_ok s r.1.2 = true)).foldl
          (fun acc r => acc ∪ numbits_to_nums r.2) ∅) ↔
          ∃ r ∈ s.line_bits, r.1.1 = fid0 ∧ x ∈ r.2 := by
        intro x
        rw [mem_foldl_union]
        simp only [Finset.not_mem_empty, false_or, List.mem_filter, decide_eq_true_eq]
        constructor
        · rintro ⟨r, ⟨hr, hrfid, _⟩, hx⟩
          exact ⟨r, hr, hrfid, hx⟩
        · rintro ⟨r, hr, hrfid, hx⟩
          exact ⟨r, ⟨hr, hrfid, hctxs _⟩, hx⟩
      cases hex : alookup s.line_bits ((fid0, (set_context_id sc).2) : Nat × Nat) with
      | none =>
        have hnb : add_lines_nb2 ((set_context_id sc).1) (fid0, (set_context_id sc).2)
            (nums_to_numbits L) = L := by
          unfold add_lines_nb2
          rw [hlb2, hex]
          rfl
        rw [hnb]
        rw [upsertA_of_alookup_eq_none hex L]
        congr 1
        ext x
        rw [mem_foldl_union]
        simp only [Finset.not_mem_empty, false_or, List.mem_filter, List.mem_append,
          List.mem_singleton, decide_eq_true_eq, Option.getD_some, Finset.mem_union, hU x]
        constructor
        · rintro ⟨r, ⟨hr, hrfid, _⟩, hx⟩
          rcases hr with hold | rfl
          · exact Or.inl ⟨r, hold, hrfid, hx⟩
          · exact Or.inr hx
        · rintro (⟨r, hr, hrfid, hx⟩ | hx)
          · exact ⟨r, ⟨Or.inl hr, hrfid, hctx1 _⟩, hx⟩
          · exact ⟨((fid0, (set_context_id sc).2), L), ⟨Or.inr rfl, rfl, hctx1 _⟩, hx⟩
      | some v =>
        have hnb : add_lines_nb2 ((set_context_id sc).1) (fid0, (set_context_id sc).2)
            (nums_to_numbits L) = L ∪ v := by
          unfold add_lines_nb2
          rw [hlb2, hex]
          rfl
        rw [hnb]
        obtain ⟨l1, l2, hsplit, _, hupeq⟩ := upsertA_decomp hex (L ∪ v)
        rw [hupeq]
        congr 1
        ext x
        rw [mem_foldl_union]
        simp only [Finset.not_mem_empty, false_or, List.mem_filter, List.mem_append,
          List.mem_cons, decide_eq_true_eq, Option.getD_some, Finset.mem_union, hU x]
        constructor
        · rintro ⟨r, ⟨hr, hrfid, _⟩, hx⟩
          rcases hr with h1 | rfl | h2
          · exact Or.inl ⟨r, by rw [hsplit]; exact List.mem_append.mpr (Or.inl h1), hrfid, hx⟩
          · rcases Finset.mem_union.mp hx with hx | hx
            · exact Or.inr hx
            · refine Or.inl ⟨((fid0, (set_context_id sc).2), v), ?_, rfl, hx⟩
              rw [hsplit]
              exact List.mem_append.mpr (Or.inr (List.mem_cons_self _ _))
          · refine Or.inl ⟨r, ?_, hrfid, hx⟩
            rw [hsplit]
            exact List.mem_append.mpr (Or.inr (List.mem_cons_of_mem _ h2))
        · rintro (⟨r, hr, hrfid, hx⟩ | hx)
          · rw [hsplit] at hr
            rcases List.mem_append.mp hr with h1 | h1
            · exact ⟨r, ⟨Or.inl h1, hrfid, hctx1 _⟩, hx⟩
            · rcases List.mem_cons.mp h1 with rfl | h2
              · exact ⟨((fid0, (set_context_id sc).2), L ∪ v),
                  ⟨Or.inr (Or.inl rfl), rfl, hctx1 _⟩, Finset.mem_union_right _ hx⟩
              · exact ⟨r, ⟨Or.inr (Or.inr h2), hrfid, hctx1 _⟩, hx⟩
          · exact ⟨((fid0, (set_context_id sc).2), L ∪ v),
              ⟨Or.inr (Or.inl rfl), rfl, hctx1 _⟩, Finset.mem_union_left _ hx⟩

end CoverageData

/-- C1: on a line-mode store with no query-context filter, any sequence of
`add_lines` calls for one file under the store's (unchanged) current context
succeeds, and `lines(file)` afterwards is exactly what the store already
held for that file together with the union of every added set: each write
replaces the `line_bits` row with the union of the new set and the existing
one, never destructively overwriting previously recorded lines. -/
theorem add_lines_accumulates (s : CoverageData) (f : String) (Ls : List (Finset Nat))
    (hwf : WF s) (hA : s.has_arcs = false) (hq : s.query_context_ids = none)
    (hne : Ls ≠ []) {s' : CoverageData} (h : add_lines_seq s f Ls = Except.ok s') :
    CoverageData.lines s' f =
      some ((CoverageData.lines s f).getD ∅ ∪ Ls.foldl (fun acc L => acc ∪ L) ∅) := by
  induction Ls generalizing s with
  | nil => exact absurd rfl hne
  | cons L0 Ls ih =>
    obtain ⟨s1, hs1, hwf1, hA1, hq1, hlines1⟩ :=
      CoverageData.add_lines_single_step s f L0 hwf hA hq
    replace h : (CoverageData.add_lines s [(f, L0)] >>=
        fun t => add_lines_seq t f Ls) = Except.ok s' := h
    rw [hs1] at h
    have h2 : add_lines_seq s1 f Ls = Except.ok s' := h
    cases Ls with
    | nil =>
      have h3 : Except.ok s1 = Except.ok s' := h2
      cases h3
      rw [hlines1]
      simp
    | cons L1 Ls1 =>
      rw [ih s1 hwf1 hA1 hq1 (by simp) h2, hlines1]
      congr 1
      rw [List.foldl_cons, List.foldl_cons, List.foldl_cons,
        CoverageData.foldl_union_acc Ls1 (∅ ∪ L1),
        CoverageData.foldl_union_acc Ls1 (∅ ∪ L0 ∪ L1)]
      simp [Finset.union_assoc]

theorem add_lines_accumulates_witness :
    ∃ s', add_lines_seq lineStore "a.py" [{7}, {1, 9}] = Except.ok s' ∧
      CoverageData.lines s' "a.py" =
        some ((CoverageData.lines lineStore "a.py").getD ∅ ∪
          List.foldl (fun acc L => acc ∪ L) ∅ [{7}, {1, 9}]) :=
  ⟨_, rfl, add_lines_accumulates lineStore "a.py" [{7}, {1, 9}]
    (by decide) rfl rfl (by simp) rfl⟩

/-! ### Idempotence infrastructure for `update` -/

namespace CoverageData

theorem setLineBits_self (st : CoverageData) : setLineBits st st.line_bits = st := rfl

theorem setArc_self (st : CoverageData) : setArc st st.arc = st := rfl

theorem setTracer_self (st : CoverageData) : setTracer st st.tracer = st := rfl

theorem updArc_nil (t st : CoverageData) : updArc t st [] = st := rfl

theorem updLines_nil (t st : CoverageData) : updLines t st [] = st := rfl

theorem update_ok_dest {a b : CoverageData} {mp : String → String} {s' : CoverageData}
    (h : update a b mp = Except.ok s') :
    updateApply a (filesOf b mp) (b.context.map Prod.fst) (arcsOf b mp) (linesOf b mp)
      (tracersOf b mp) (thisTracersOf a mp) = Except.ok s' := by
  unfold update at h
  split at h
  · cases h
  · split at h
    · cases h
    · exact h

theorem lookupById_mem {α β : Type} [DecidableEq β] :
    ∀ {l : List (α × β)} {k : α} {b : β}, lookupById l b = some k → (k, b) ∈ l
  | [], _, _, h => by cases h
  | (a1, b1) :: tl, k, b, h => by
    by_cases hb : b1 = b
    · subst hb
      have h2 : (if b1 = b1 then some a1 else lookupById tl b1) = some k := h
      rw [if_pos rfl] at h2
      cases h2
      exact List.mem_cons_self _ _
    · have h2 : (if b1 = b then some a1 else lookupById tl b) = some k := h
      rw [if_neg hb] at h2
      exact List.mem_cons_of_mem _ (lookupById_mem h2)

theorem eq_of_mem_of_nodup_snd {α β : Type} {l : List (α × β)}
    (hnd : (l.map Prod.snd).Nodup) {x y : α × β} (hx : x ∈ l) (hy : y ∈ l)
    (h2 : x.2 = y.2) : x = y := by
  induction l with
  | nil => cases hx
  | cons hd tl ih =>
    simp only [List.map_cons, List.nodup_cons] at hnd
    rcases List.mem_cons.mp hx with rfl | hx2
    · rcases List.mem_cons.mp hy with rfl | hy2
      · rfl
      · exfalso
        apply hnd.1
        rw [h2]
        exact List.mem_map_of_mem Prod.snd hy2
    · rcases List.mem_cons.mp hy with rfl | hy2
      · exfalso
        apply hnd.1
        rw [← h2]
        exact List.mem_map_of_mem Prod.snd hx2
      · exact ih hnd.2 hx2 hy2

theorem alookup_ne_of_ne {α β : Type} [DecidableEq α] {l : List (α × β)}
    (hnd : (l.map Prod.snd).Nodup) {p q : α} {i j : β}
    (hp : alookup l p = some i) (hq : alookup l q = some j) (hpq : p ≠ q) : i ≠ j := by
  intro hij
  have hx := mem_of_alookup_eq_some hp
  have hy := mem_of_alookup_eq_some hq
  have heq := eq_of_mem_of_nodup_snd hnd hx hy hij
  exact hpq (congrArg Prod.fst heq)

theorem alookup_upsertA_isSome {α β : Type} [DecidableEq α] {l : List (α × β)} {k q : α}
    {v : β} (h : (alookup l q).isSome = true) :
    (alookup (upsertA k v l) q).isSome = true := by
  by_cases hq : q = k
  · subst hq
    rw [alookup_upsertA_self]
    rfl
  · rw [alookup_upsertA_ne _ _ hq]
    exact h

theorem tracer_fold_mono (t : CoverageData) (tm : List (String × String))
    (l0 : List (Nat × String)) (fid : Nat) (h : (alookup l0 fid).isSome = true) :
    (alookup (tm.foldl (fun l kv =>
      match alookup t.file kv.1 with
      | some fid2 => if (alookup l fid2).isSome then l else l ++ [(fid2, kv.2)]
      | none => l) l0) fid).isSome = true := by
  apply foldl_induction _ (fun l : List (Nat × String) => (alookup l fid).isSome = true)
    tm l0 h
  intro l kv _ hl
  cases hf : alookup t.file kv.1 with
  | none => exact hl
  | some fid2 =>
    show (alookup (if (alookup l fid2).isSome = true then l else l ++ [(fid2, kv.2)])
      fid).isSome = true
    by_cases hc : (alookup l fid2).isSome = true
    · rw [if_pos hc]
      exact hl
    · rw [if_neg hc, alookup_append]
      cases ho : alookup l fid with
      | some v => rfl
      | none =>
        rw [ho] at hl
        cases hl

theorem tracer_fold_covers (t : CoverageData) :
    ∀ (tm : List (String × String)) (l0 : List (Nat × String)) {kv : String × String},
      kv ∈ tm → ∀ {fid : Nat}, alookup t.file kv.1 = some fid →
      (alookup (tm.foldl (fun l kv =>
        match alookup t.file kv.1 with
        | some fid2 => if (alookup l fid2).isSome then l else l ++ [(fid2, kv.2)]
        | none => l) l0) fid).isSome = true
  | [], _, _, h, _, _ => absurd h (List.not_mem_nil _)
  | hd :: tl, l0, kv, hkv, fid, hfid => by
    rw [List.foldl_cons]
    rcases List.mem_cons.mp hkv with rfl | h2
    · apply tracer_fold_mono
      rw [hfid]
      show (alookup (if (alookup l0 fid).isSome = true then l0 else l0 ++ [(fid, kv.2)])
        fid).isSome = true
      by_cases hc : (alookup l0 fid).isSome = true
      · rw [if_pos hc]
        exact hc
      · rw [if_neg hc, alookup_append]
        cases ho : alookup l0 fid with
        | some v => rfl
        | none => simp [alookup]
    · exact tracer_fold_covers t tl _ h2 hfid

theorem tracer_fold_noop (t : CoverageData) (tm : List (String × String))
    (l0 : List (Nat × String))
    (h : ∀ kv ∈ tm, ∀ fid, alookup t.file kv.1 = some fid →
      (alookup l0 fid).isSome = true) :
    tm.foldl (fun l kv =>
      match alookup t.file kv.1 with
      | some fid2 => if (alookup l fid2).isSome then l else l ++ [(fid2, kv.2)]
      | none => l) l0 = l0 := by
  apply foldl_congr_noop
  intro kv hkv
  cases hf : alookup t.file kv.1 with
  | none => rfl
  | some fid2 =>
    show (if (alookup l0 fid2).isSome = true then l0 else l0 ++ [(fid2, kv.2)]) = l0
    rw [if_pos (h kv hkv fid2 hf)]

theorem buildTracerMap_step_ok_shape {tt bt acc : List (String × String)} {path : String}
    {out : List (String × String)}
    (h : buildTracerMap_step tt bt acc path = Except.ok out) :
    out = upsertA path ((alookup bt path).getD "") acc := by
  unfold buildTracerMap_step at h
  split at h
  · split at h
    · cases h
      rfl
    · cases h
  · cases h
    rfl

theorem buildTracerMap_mem_paths {tt bt : List (String × String)} {paths : List String}
    {tm : List (String × String)} (h : buildTracerMap tt bt paths = Except.ok tm)
    {kv : String × String} (hkv : kv ∈ tm) : kv.1 ∈ paths := by
  refine foldlM_induction _
    (fun l : List (String × String) => ∀ kv2 ∈ l, kv2.1 ∈ paths) paths [] tm h ?_ ?_ kv hkv
  · intro kv2 hkv2
    cases hkv2
  · intro t2 p t2' hp hstep ih kv2 hkv2
    rw [buildTracerMap_step_ok_shape hstep] at hkv2
    rcases mem_upsertA hkv2 with rfl | h2
    · exact hp
    · exact ih kv2 h2

theorem buildTracerMap_key_isSome {tt bt : List (String × String)} :
    ∀ {paths : List String} {acc tm : List (String × String)},
      paths.foldlM (buildTracerMap_step tt bt) acc = Except.ok tm →
      ∀ p ∈ paths, (alookup tm p).isSome = true
  | [], _, _, _, _, hp => absurd hp (List.not_mem_nil _)
  | hd :: tl, acc, tm, h, p, hp => by
    replace h : (buildTracerMap_step tt bt acc hd >>= fun acc2 =>
        tl.foldlM (buildTracerMap_step tt bt) acc2) = Except.ok tm := h
    cases hstep : buildTracerMap_step tt bt acc hd with
    | error e =>
      rw [hstep] at h
      have h2 : (Except.error e : Except String (List (String × String))) = Except.ok tm := h
      cases h2
    | ok acc2 =>
      rw [hstep] at h
      have h2 : tl.foldlM (buildTracerMap_step tt bt) acc2 = Except.ok tm := h
      rcases List.mem_cons.mp hp with rfl | hp2
      · have hbase : (alookup acc2 p).isSome = true := by
          rw [buildTracerMap_step_ok_shape hstep, alookup_upsertA_self]
          rfl
        exact foldlM_induction _ (fun l : List (String × String) =>
          (alookup l p).isSome = true) tl acc2 tm h2 hbase
          (fun t2 q t2' _ hstepq ih => by
            rw [buildTracerMap_step_ok_shape hstepq]
            exact alookup_upsertA_isSome ih)
      · exact buildTracerMap_key_isSome h2 p hp2

end CoverageData

namespace CoverageData

theorem insertFileIgnore_lookup_self (st : CoverageData) (p : String) :
    (alookup (insertFileIgnore st p).file p).isSome = true := by
  rw [insertFileIgnore]
  split
  · next hc => exact hc
  · show (alookup (st.file ++ [(p, st.next_file_id)]) p).isSome = true
    rw [alookup_append]
    cases ho : alookup st.file p with
    | some v => rfl
    | none => simp [alookup]

theorem insertFileIgnore_lookup_mono (st : CoverageData) (p : String) {q : String}
    (h : (alookup st.file q).isSome = true) :
    (alookup (insertFileIgnore st p).file q).isSome = true := by
  rw [insertFileIgnore]
  split
  · exact h
  · show (alookup (st.file ++ [(p, st.next_file_id)]) q).isSome = true
    rw [alookup_append]
    cases ho : alookup st.file q with
    | some v => rfl
    | none =>
      rw [ho] at h
      cases h

theorem insertContextIgnore_lookup_self (st : CoverageData) (c : String) :
    (alookup (insertContextIgnore st c).context c).isSome = true := by
  rw [insertContextIgnore]
  split
  · next hc => exact hc
  · show (alookup (st.context ++ [(c, st.next_context_id)]) c).isSome = true
    rw [alookup_append]
    cases ho : alookup st.context c with
    | some v => rfl
    | none => simp [alookup]

theorem insertContextIgnore_lookup_mono (st : CoverageData) (c : String) {q : String}
    (h : (alookup st.context q).isSome = true) :
    (alookup (insertContextIgnore st c).context q).isSome = true := by
  rw [insertContextIgnore]
  split
  · exact h
  · show (alookup (st.context ++ [(c, st.next_context_id)]) q).isSome = true
    rw [alookup_append]
    cases ho : alookup st.context q with
    | some v => rfl
    | none =>
      rw [ho] at h
      cases h

theorem stage_file_fold_mem : ∀ (files : List (String × String)) (st : CoverageData)
    {pr : String × String}, pr ∈ files →
    (alookup (files.foldl (fun st pr => insertFileIgnore st pr.2) st).file pr.2).isSome = true
  | [], _, _, hpr => absurd hpr (List.not_mem_nil _)
  | hd :: tl, st, pr, hpr => by
    rw [List.foldl_cons]
    rcases List.mem_cons.mp hpr with rfl | h2
    · refine foldl_induction _ (fun t : CoverageData => (alookup t.file pr.2).isSome = true)
        tl _ (insertFileIgnore_lookup_self st pr.2) ?_
      intro t q _ ht
      exact insertFileIgnore_lookup_mono t q.2 ht
    · exact stage_file_fold_mem tl _ h2

theorem stage_ctx_fold_mem : ∀ (cs : List String) (st : CoverageData) {c : String}, c ∈ cs →
    (alookup (cs.foldl insertContextIgnore st).context c).isSome = true
  | [], _, _, hc => absurd hc (List.not_mem_nil _)
  | hd :: tl, st, c, hc => by
    rw [List.foldl_cons]
    rcases List.mem_cons.mp hc with rfl | h2
    · refine foldl_induction _ (fun t : CoverageData => (alookup t.context c).isSome = true)
        tl _ (insertContextIgnore_lookup_self st c) ?_
      intro t q _ ht
      exact insertContextIgnore_lookup_mono t q ht
    · exact stage_ctx_fold_mem tl _ h2

theorem stage_ctx_fold_file (bcontexts : List String) (st : CoverageData) :
    (bcontexts.foldl insertContextIgnore st).file = st.file :=
  foldl_induction _ (fun t : CoverageData => t.file = st.file) bcontexts st rfl
    (fun t c _ ht => by
      show (insertContextIgnore t c).file = st.file
      rw [insertContextIgnore_file]
      exact ht)

theorem staged_file_mem (a : CoverageData) (files : List (String × String))
    (bcontexts : List String) {pr : String × String} (hpr : pr ∈ files) :
    (alookup (stageTables a files bcontexts).file pr.2).isSome = true := by
  unfold stageTables
  rw [stage_ctx_fold_file]
  exact stage_file_fold_mem files a hpr

theorem staged_ctx_mem (a : CoverageData) (files : List (String × String))
    (bcontexts : List String) {c : String} (hc : c ∈ bcontexts) :
    (alookup (stageTables a files bcontexts).context c).isSome = true := by
  unfold stageTables
  exact stage_ctx_fold_mem bcontexts _ hc

theorem stageTables_noop {a : CoverageData} {files : List (String × String)}
    {bcontexts : List String}
    (hf : ∀ pr ∈ files, (alookup a.file pr.2).isSome = true)
    (hc : ∀ c ∈ bcontexts, (alookup a.context c).isSome = true) :
    stageTables a files bcontexts = a := by
  unfold stageTables
  have h1 : files.foldl (fun st pr => insertFileIgnore st pr.2) a = a :=
    foldl_congr_noop _ files a (fun pr hpr => by
      rw [insertFileIgnore, if_pos (hf pr hpr)])
  rw [h1]
  exact foldl_congr_noop _ bcontexts a (fun c hcm => by
    rw [insertContextIgnore, if_pos (hc c hcm)])

theorem WF_stageTables {a : CoverageData} (hwf : WF a) (files : List (String × String))
    (bcontexts : List String) : WF (stageTables a files bcontexts) := by
  unfold stageTables
  refine foldl_induction _ WF bcontexts _ ?_ (fun t c _ ht => WF_insertContextIgnore ht c)
  exact foldl_induction _ WF files a hwf (fun t pr _ ht => WF_insertFileIgnore ht pr.2)

end CoverageData

namespace CoverageData

theorem upsertA_map_fst_of_mem {α β : Type} [DecidableEq α] {l : List (α × β)} {k : α}
    {ex : β} (h : alookup l k = some ex) (v : β) :
    (upsertA k v l).map Prod.fst = l.map Prod.fst := by
  obtain ⟨l1, l2, heq, _, hup⟩ := upsertA_decomp h v
  rw [hup, heq]
  simp

theorem linesOf_keys_nodup (b : CoverageData) (mp : String → String) :
    ((linesOf b mp).map Prod.fst).Nodup := by
  unfold linesOf
  refine foldl_induction _ (fun acc : List ((String × String) × Finset Nat) =>
    (acc.map Prod.fst).Nodup) _ [] (by simp) ?_
  intro acc r _ hnd
  cases h1 : lookupById b.file r.1.1 with
  | none => exact hnd
  | some p =>
    cases h2 : lookupById b.context r.1.2 with
    | none => exact hnd
    | some c =>
      show ((match alookup acc (mp p, c) with
        | some prev => upsertA (mp p, c) (numbits_union prev r.2) acc
        | none => acc ++ [((mp p, c), r.2)]).map Prod.fst).Nodup
      cases h3 : alookup acc (mp p, c) with
      | some prev =>
        show ((upsertA (mp p, c) (numbits_union prev r.2) acc).map Prod.fst).Nodup
        rw [upsertA_map_fst_of_mem h3]
        exact hnd
      | none =>
        show ((acc ++ [((mp p, c), r.2)]).map Prod.fst).Nodup
        rw [List.map_append, List.nodup_append]
        refine ⟨hnd, by simp, ?_⟩
        intro x hx hx2
        simp only [List.map_cons, List.map_nil, List.mem_singleton] at hx2
        subst hx2
        exact (alookup_eq_none_iff.mp h3) hx

theorem linesOf_key_mem (b : CoverageData) (mp : String → String) :
    ∀ kv ∈ linesOf b mp, kv.1.1 ∈ (filesOf b mp).map Prod.snd ∧
      kv.1.2 ∈ b.context.map Prod.fst := by
  unfold linesOf
  refine foldl_induction _ (fun acc : List ((String × String) × Finset Nat) =>
    ∀ kv ∈ acc, kv.1.1 ∈ (filesOf b mp).map Prod.snd ∧ kv.1.2 ∈ b.context.map Prod.fst)
    _ [] (fun kv hkv => absurd hkv (List.not_mem_nil _)) ?_
  intro acc r _ ih
  cases h1 : lookupById b.file r.1.1 with
  | none => exact ih
  | some p =>
    cases h2 : lookupById b.context r.1.2 with
    | none => exact ih
    | some c =>
      have hkey : (mp p) ∈ (filesOf b mp).map Prod.snd ∧ c ∈ b.context.map Prod.fst := by
        constructor
        · simp only [filesOf, List.map_map]
          exact List.mem_map.mpr ⟨(p, r.1.1), lookupById_mem h1, rfl⟩
        · exact List.mem_map.mpr ⟨(c, r.1.2), lookupById_mem h2, rfl⟩
      show ∀ kv ∈ (match alookup acc (mp p, c) with
        | some prev => upsertA (mp p, c) (numbits_union prev r.2) acc
        | none => acc ++ [((mp p, c), r.2)]),
        kv.1.1 ∈ (filesOf b mp).map Prod.snd ∧ kv.1.2 ∈ b.context.map Prod.fst
      cases h3 : alookup acc (mp p, c) with
      | some prev =>
        intro kv hkv
        rcases mem_upsertA hkv with rfl | h4
        · exact hkey
        · exact ih kv h4
      | none =>
        intro kv hkv
        rcases List.mem_append.mp hkv with h4 | h4
        · exact ih kv h4
        · rcases List.mem_singleton.mp h4 with rfl
          exact hkey

theorem lineRowsT_eq (t : CoverageData) (cur : List ((Nat × Nat) × Finset Nat))
    (blines : List ((String × String) × Finset Nat)) :
    lineRowsT t cur blines = blines.map (fun kv =>
      (((alookup t.file kv.1.1).getD 0, (alookup t.context kv.1.2).getD 0),
        match alookup cur ((alookup t.file kv.1.1).getD 0,
          (alookup t.context kv.1.2).getD 0) with
        | some ex => numbits_union kv.2 ex
        | none => kv.2)) := by
  unfold lineRowsT
  apply List.map_congr_left
  intro kv _
  show (match alookup cur ((alookup t.file kv.1.1).getD 0, (alookup t.context kv.1.2).getD 0) with
    | some ex => (((alookup t.file kv.1.1).getD 0, (alookup t.context kv.1.2).getD 0),
        numbits_union kv.2 ex)
    | none => (((alookup t.file kv.1.1).getD 0, (alookup t.context kv.1.2).getD 0), kv.2)) =
    (((alookup t.file kv.1.1).getD 0, (alookup t.context kv.1.2).getD 0),
      match alookup cur ((alookup t.file kv.1.1).getD 0, (alookup t.context kv.1.2).getD 0) with
      | some ex => numbits_union kv.2 ex
      | none => kv.2)
  cases h : alookup cur ((alookup t.file kv.1.1).getD 0, (alookup t.context kv.1.2).getD 0) with
  | some ex => rfl
  | none => rfl

theorem lineRowsT_map_fst (t : CoverageData) (cur : List ((Nat × Nat) × Finset Nat))
    (blines : List ((String × String) × Finset Nat)) :
    (lineRowsT t cur blines).map Prod.fst = blines.map (fun kv =>
      ((alookup t.file kv.1.1).getD 0, (alookup t.context kv.1.2).getD 0)) := by
  rw [lineRowsT_eq, List.map_map]
  apply List.map_congr_left
  intro kv _
  rfl

theorem lineRowsT_keys_nodup {t : CoverageData} {cur : List ((Nat × Nat) × Finset Nat)}
    {blines : List ((String × String) × Finset Nat)}
    (hndf : (t.file.map Prod.snd).Nodup) (hndc : (t.context.map Prod.snd).Nodup)
    (hnd : (blines.map Prod.fst).Nodup)
    (hsome : ∀ kv ∈ blines, (alookup t.file kv.1.1).isSome = true ∧
      (alookup t.context kv.1.2).isSome = true) :
    ((lineRowsT t cur blines).map Prod.fst).Nodup := by
  rw [lineRowsT_map_fst]
  have hmm : blines.map (fun kv : (String × String) × Finset Nat =>
      ((alookup t.file kv.1.1).getD 0, (alookup t.context kv.1.2).getD 0))
      = (blines.map Prod.fst).map (fun pc : String × String =>
        ((alookup t.file pc.1).getD 0, (alookup t.context pc.2).getD 0)) := by
    rw [List.map_map]
    rfl
  rw [hmm]
  apply List.Nodup.map_on ?_ hnd
  intro x hx y hy hxy
  obtain ⟨kvx, hkvx, hkvx2⟩ := List.mem_map.mp hx
  obtain ⟨kvy, hkvy, hkvy2⟩ := List.mem_map.mp hy
  subst hkvx2
  subst hkvy2
  obtain ⟨hfx, hcx⟩ := hsome kvx hkvx
  obtain ⟨hfy, hcy⟩ := hsome kvy hkvy
  obtain ⟨fx, hfx2⟩ := Option.isSome_iff_exists.mp hfx
  obtain ⟨cx, hcx2⟩ := Option.isSome_iff_exists.mp hcx
  obtain ⟨fy, hfy2⟩ := Option.isSome_iff_exists.mp hfy
  obtain ⟨cy, hcy2⟩ := Option.isSome_iff_exists.mp hcy
  simp only [hfx2, hfy2, hcx2, hcy2, Option.getD_some, Prod.mk.injEq] at hxy
  have hp : kvx.1.1 = kvy.1.1 := by
    by_contra hne
    exact alookup_ne_of_ne hndf hfx2 hfy2 hne hxy.1
  have hc : kvx.1.2 = kvy.1.2 := by
    by_contra hne
    exact alookup_ne_of_ne hndc hcx2 hcy2 hne hxy.2
  calc kvx.1 = (kvx.1.1, kvx.1.2) := by simp
    _ = (kvy.1.1, kvy.1.2) := by rw [hp, hc]
    _ = kvy.1 := by simp

theorem updLines_lookup {t st5 : CoverageData}
    {blines : List ((String × String) × Finset Nat)}
    (hndkeys : ((lineRowsT t st5.line_bits blines).map Prod.fst).Nodup)
    {kv : (String × String) × Finset Nat} (hkv : kv ∈ blines) :
    ∃ ex, alookup (updLines t st5 blines).line_bits
        ((alookup t.file kv.1.1).getD 0, (alookup t.context kv.1.2).getD 0) = some ex ∧
      kv.2 ⊆ ex := by
  have hrow : (((alookup t.file kv.1.1).getD 0, (alookup t.context kv.1.2).getD 0),
      (match alookup st5.line_bits ((alookup t.file kv.1.1).getD 0,
        (alookup t.context kv.1.2).getD 0) with
       | some ex => numbits_union kv.2 ex
       | none => kv.2 : Finset Nat)) ∈ lineRowsT t st5.line_bits blines := by
    rw [lineRowsT_eq]
    exact List.mem_map_of_mem _ hkv
  have hlook := alookup_foldl_upsertA_distinct st5.line_bits hndkeys hrow
  cases h : alookup st5.line_bits ((alookup t.file kv.1.1).getD 0,
      (alookup t.context kv.1.2).getD 0) with
  | some ex0 =>
    rw [h] at hlook
    refine ⟨numbits_union kv.2 ex0, ?_, ?_⟩
    · simp only [updLines, setLineBits_line_bits]
      exact hlook
    · show kv.2 ⊆ kv.2 ∪ ex0
      exact Finset.subset_union_left
  | none =>
    rw [h] at hlook
    refine ⟨kv.2, ?_, Finset.Subset.refl _⟩
    simp only [updLines, setLineBits_line_bits]
    exact hlook

theorem updLines_noop {t st5 : CoverageData} {blines : List ((String × String) × Finset Nat)}
    (h : ∀ kv ∈ blines, ∃ ex, alookup st5.line_bits
      ((alookup t.file kv.1.1).getD 0, (alookup t.context kv.1.2).getD 0) = some ex ∧
      kv.2 ⊆ ex) :
    updLines t st5 blines = st5 := by
  unfold updLines
  have hfold : (lineRowsT t st5.line_bits blines).foldl (fun l kv => upsertA kv.1 kv.2 l)
      st5.line_bits = st5.line_bits := by
    apply foldl_upsertA_noop
    intro rkv hrkv
    rw [lineRowsT_eq] at hrkv
    obtain ⟨kv, hkv, heq⟩ := List.mem_map.mp hrkv
    subst heq
    obtain ⟨ex, hex, hsub⟩ := h kv hkv
    show alookup st5.line_bits ((alookup t.file kv.1.1).getD 0,
        (alookup t.context kv.1.2).getD 0)
      = some (match alookup st5.line_bits ((alookup t.file kv.1.1).getD 0,
          (alookup t.context kv.1.2).getD 0) with
        | some ex2 => numbits_union kv.2 ex2
        | none => kv.2)
    rw [hex]
    show some ex = some (kv.2 ∪ ex)
    rw [Finset.union_eq_right.mpr hsub]
  rw [hfold]
  exact setLineBits_self st5

theorem arcRowsT_congr {t u : CoverageData} (hf : t.file = u.file)
    (hc : t.context = u.context) (l : List (String × String × Int × Int)) :
    arcRowsT t l = arcRowsT u l := by
  unfold arcRowsT
  rw [hf, hc]

theorem lineRowsT_congr {t u : CoverageData} (hf : t.file = u.file)
    (hc : t.context = u.context) (cur : List ((Nat × Nat) × Finset Nat))
    (blines : List ((String × String) × Finset Nat)) :
    lineRowsT t cur blines = lineRowsT u cur blines := by
  unfold lineRowsT
  rw [hf, hc]

theorem updArc_congr_t {t u st3 : CoverageData} (hf : t.file = u.file)
    (hc : t.context = u.context) (barcs : List (String × String × Int × Int)) :
    updArc t st3 barcs = updArc u st3 barcs := by
  unfold updArc
  rw [arcRowsT_congr hf hc]

theorem updLines_congr_t {t u st5 : CoverageData} (hf : t.file = u.file)
    (hc : t.context = u.context) (blines : List ((String × String) × Finset Nat)) :
    updLines t st5 blines = updLines u st5 blines := by
  unfold updLines
  rw [lineRowsT_congr hf hc]

theorem updTracer_congr_t {t u st6 : CoverageData} (hf : t.file = u.file)
    (tm : List (String × String)) : updTracer t st6 tm = updTracer u st6 tm := by
  unfold updTracer
  rw [hf]

end CoverageData

namespace CoverageData

/-- C2: `update` is idempotent on content.  After a successful
`a.update(b, map_path)` producing `a1`, running the same update again on
`a1` leaves the store exactly at `a1`: every incoming file, context, arc
row, line bitset and tracer association is already present, so the second
run's `insert or ignore` / union-`insert or replace` writes change nothing
(and if the second run raises, the transaction rolls back to `a1`). -/
theorem update_idempotent (a b : CoverageData) (mp : String → String) {a1 : CoverageData}
    (hwf : WF a) (h : update a b mp = Except.ok a1) :
    updateApplied a1 b mp = a1 := by
  unfold updateApplied
  cases h2 : update a1 b mp with
  | error e => rfl
  | ok a2 =>
    show a2 = a1
    obtain ⟨tm, st3, st5, htm, hst3, hst5, ha1⟩ :=
      updateApply_ok_dest (update_ok_dest h)
    obtain ⟨tm2, st3x, st5x, htm2, hst3x, hst5x, ha2⟩ :=
      updateApply_ok_dest (update_ok_dest h2)
    have hst5f : st5.file = (stageTables a (filesOf b mp) (b.context.map Prod.fst)).file ∧
        st5.context = (stageTables a (filesOf b mp) (b.context.map Prod.fst)).context := by
      have hst3f : st3.file = (stageTables a (filesOf b mp) (b.context.map Prod.fst)).file ∧
          st3.context = (stageTables a (filesOf b mp) (b.context.map Prod.fst)).context := by
        rcases hst3 with ⟨_, rfl⟩ | ⟨_, hch⟩
        · exact ⟨rfl, rfl⟩
        · obtain ⟨c1, _, c3, _⟩ := choose_ok_components hch
          exact ⟨c1, c3⟩
      rcases hst5 with ⟨_, rfl⟩ | ⟨_, hch⟩
      · simp only [updArc, setArc_file, setArc_context]
        exact hst3f
      · obtain ⟨c1, _, c3, _⟩ := choose_ok_components hch
        rw [c1, c3]
        simp only [updArc, setArc_file, setArc_context]
        exact hst3f
    have ha1f : a1.file = (stageTables a (filesOf b mp) (b.context.map Prod.fst)).file := by
      rw [ha1]
      simp only [updTracer_file, updLines_file]
      exact hst5f.1
    have ha1c : a1.context =
        (stageTables a (filesOf b mp) (b.context.map Prod.fst)).context := by
      rw [ha1]
      simp only [updTracer_context, updLines_context]
      exact hst5f.2
    have hfmem : ∀ pr ∈ filesOf b mp, (alookup a1.file pr.2).isSome = true := by
      intro pr hpr
      rw [ha1f]
      exact staged_file_mem a _ _ hpr
    have hcmem : ∀ c ∈ b.context.map Prod.fst, (alookup a1.context c).isSome = true := by
      intro c hc
      rw [ha1c]
      exact staged_ctx_mem a _ _ hc
    have hT1 : stageTables a1 (filesOf b mp) (b.context.map Prod.fst) = a1 :=
      stageTables_noop hfmem hcmem
    have hcov : ∀ p ∈ (filesOf b mp).map Prod.snd, ∀ fid,
        alookup (stageTables a (filesOf b mp) (b.context.map Prod.fst)).file p = some fid →
        (alookup a1.tracer fid).isSome = true := by
      intro p hp fid hfid
      have hkey := buildTracerMap_key_isSome htm p hp
      obtain ⟨tv, htv⟩ := Option.isSome_iff_exists.mp hkey
      have hmem := mem_of_alookup_eq_some htv
      rw [ha1]
      simp only [updTracer, setTracer_tracer]
      exact tracer_fold_covers _ tm _ hmem hfid
    have htrnoop : ∀ kv ∈ tm2, ∀ fid, alookup a1.file kv.1 = some fid →
        (alookup a1.tracer fid).isSome = true := by
      intro kv hkv fid hfid
      have hp : kv.1 ∈ (filesOf b mp).map Prod.snd :=
        buildTracerMap_mem_paths htm2 hkv
      rw [ha1f] at hfid
      exact hcov kv.1 hp fid hfid
    have hupdT : ∀ X : CoverageData, X.tracer = a1.tracer → updTracer a1 X tm2 = X := by
      intro X hX
      unfold updTracer
      rw [hX, tracer_fold_noop a1 tm2 a1.tracer htrnoop, ← hX]
      exact setTracer_self X
    rcases hst3 with ⟨hARnil, hst3e⟩ | ⟨hARne, hch3⟩
    · -- no incoming arc rows
      rcases hst5 with ⟨hLNnil, hst5e⟩ | ⟨hLNne, hch5⟩
      · -- no incoming line rows either: the whole update is staging plus tracers
        rcases hst3x with ⟨_, hst3xe⟩ | ⟨hARne2, _⟩
        · rcases hst5x with ⟨_, hst5xe⟩ | ⟨hLNne2, _⟩
          · rw [hARnil, updArc_nil, hst3xe, hT1] at hst5xe
            rw [hLNnil, updLines_nil, hst5xe, hT1] at ha2
            rw [hupdT a1 rfl] at ha2
            exact ha2
          · exact absurd hLNnil hLNne2
        · exact absurd hARnil hARne2
      · -- incoming line rows
        rw [hARnil, updArc_nil, hst3e] at hch5
        have hf5 := choose_lines_ok_flags hch5
        have ha1L : a1.has_lines = true := by
          rw [ha1]
          simp only [updTracer_has_lines, updLines_has_lines]
          exact hf5.1
        have ha1A : a1.has_arcs = false := by
          rw [ha1]
          simp only [updTracer_has_arcs, updLines_has_arcs]
          exact hf5.2
        have hwft := WF_stageTables hwf (filesOf b mp) (b.context.map Prod.fst)
        have hsome : ∀ kv ∈ linesOf b mp,
            (alookup (stageTables a (filesOf b mp) (b.context.map Prod.fst)).file
              kv.1.1).isSome = true ∧
            (alookup (stageTables a (filesOf b mp) (b.context.map Prod.fst)).context
              kv.1.2).isSome = true := by
          intro kv hkv
          obtain ⟨hp, hc⟩ := linesOf_key_mem b mp kv hkv
          obtain ⟨pr, hpr, hpr2⟩ := List.mem_map.mp hp
          constructor
          · rw [← hpr2]
            exact staged_file_mem a _ _ hpr
          · exact staged_ctx_mem a _ _ hc
        have hndk : ((lineRowsT (stageTables a (filesOf b mp) (b.context.map Prod.fst))
            st5.line_bits (linesOf b mp)).map Prod.fst).Nodup :=
          lineRowsT_keys_nodup hwft.1 hwft.2.2.1
            (linesOf_keys_nodup b mp) hsome
        have hstar : ∀ kv ∈ linesOf b mp, ∃ ex, alookup a1.line_bits
            ((alookup (stageTables a (filesOf b mp) (b.context.map Prod.fst)).file
              kv.1.1).getD 0,
             (alookup (stageTables a (filesOf b mp) (b.context.map Prod.fst)).context
              kv.1.2).getD 0) = some ex ∧ kv.2 ⊆ ex := by
          intro kv hkv
          obtain ⟨ex, hex, hsub⟩ := updLines_lookup hndk hkv
          refine ⟨ex, ?_, hsub⟩
          rw [ha1]
          simpa only [updTracer_line_bits] using hex
        rcases hst3x with ⟨_, hst3xe⟩ | ⟨hARne2, _⟩
        · rcases hst5x with ⟨hLNnil2, _⟩ | ⟨_, hch5x⟩
          · exact absurd hLNnil2 hLNne
          · rw [hARnil, updArc_nil, hst3xe, hT1,
              choose_noop_lines ha1L ha1A] at hch5x
            injection hch5x with hst5xa
            rw [hT1, ← hst5xa] at ha2
            have hnoopL : updLines a1 a1 (linesOf b mp) = a1 := by
              apply updLines_noop
              intro kv hkv
              rw [ha1f, ha1c]
              exact hstar kv hkv
            rw [hnoopL] at ha2
            rw [hupdT a1 rfl] at ha2
            exact ha2
        · exact absurd hARnil hARne2
    · -- incoming arc rows
      have hf3 := choose_arcs_ok_flags hch3
      rcases hst5 with ⟨hLNnil, hst5e⟩ | ⟨hLNne, hch5⟩
      · have ha1A : a1.has_arcs = true := by
          rw [ha1, hst5e]
          simp only [updTracer_has_arcs, updLines_has_arcs, updArc_has_arcs]
          exact hf3.1
        have ha1L : a1.has_lines = false := by
          rw [ha1, hst5e]
          simp only [updTracer_has_lines, updLines_has_lines, updArc_has_lines]
          exact hf3.2
        have harcmem : ∀ row ∈ arcRowsT
            (stageTables a (filesOf b mp) (b.context.map Prod.fst)) (arcsOf b mp),
            row ∈ a1.arc := by
          intro row hrow
          rw [ha1, hst5e]
          simp only [updTracer_arc, updLines_arc, updArc, setArc_arc]
          exact mem_foldl_insertIgnore_elem _ _ hrow
        rcases hst3x with ⟨hARnil2, _⟩ | ⟨_, hch3x⟩
        · exact absurd hARnil2 hARne
        · rw [hT1, choose_noop_arcs ha1A ha1L] at hch3x
          injection hch3x with hst3xa
          rcases hst5x with ⟨_, hst5xe⟩ | ⟨hLNne2, _⟩
          · have hnoopA : updArc a1 a1 (arcsOf b mp) = a1 := by
              unfold updArc
              rw [arcRowsT_congr ha1f ha1c,
                foldl_insertIgnore_noop harcmem]
              exact setArc_self a1
            rw [hT1, ← hst3xa, hnoopA] at hst5xe
            rw [hLNnil, updLines_nil, hst5xe, hT1] at ha2
            rw [hupdT a1 rfl] at ha2
            exact ha2
          · exact absurd hLNnil hLNne2
      · have hA5 : (updArc (stageTables a (filesOf b mp) (b.context.map Prod.fst)) st3
            (arcsOf b mp)).has_arcs = true := by
          simp only [updArc_has_arcs]
          exact hf3.1
        rw [choose_lines_conflict hA5] at hch5
        cases hch5

theorem update_idempotent_witness :
    WF empty0 ∧ ∃ a1,
      update empty0 lineStore (fun p => p) = Except.ok a1 ∧
      updateApplied a1 lineStore (fun p => p) = a1 :=
  ⟨by decide, _, rfl,
    update_idempotent empty0 lineStore (fun p => p) (by decide) rfl⟩

end CoverageData

end Sqldata
